import Mathlib

/-!
# SANA: method selection and beta-derived alpha

A shallow embedding of `src/arguments/methodSelector.cpp`.

* A C++ `double` is a value of `Dbl`: a rational, or one of the IEEE 754 special values (two
  infinities, NaN).  The operations `add`, `sub`, `mul`, `div` give the exact result of an
  operation, with the IEEE 754 results of a division by zero (`0/0` is NaN, `x/0` is an infinity
  carrying the sign of `x`); `fadd`, `fsub`, `fmul`, `fdiv` round that result to binary64 as the
  C++ operations do.  The sign of zero is not modelled.
* `betaDerivedAlpha` is the function over the exact operations, for the statements worded over
  exact arithmetic; `betaDerivedAlphaBinary64` is the function over the rounded operations, for
  the statements about the order of the doubles it returns.
* A C++ function that may throw returns `Except Exn _`.
* Reading a `vector` past its end is undefined behaviour in C++; the embedding
  reports it as `Exn.undefined_behaviour`.
* The score file is an `Option ScoreTable`: `none` when the file does not exist,
  `some rows` for the rows `fileToStringsByLines` returns.
* Functions of the C++ standard library and of classes that are not part of
  `methodSelector.cpp` (`stod`, `MeasureCombination`, the double to `uint`
  conversion) are parameters.
-/

namespace SANA

/-! ## Doubles -/

/-- A C++ `double`: a rational or an IEEE 754 special value. -/
inductive Dbl where
  | fin (q : ℚ)
  | posInf
  | negInf
  | nan
  deriving DecidableEq

namespace Dbl

/-- The infinity with the sign of the non-zero rational `q`. -/
def infOfSign (q : ℚ) : Dbl := if 0 < q then posInf else negInf

/-- Unary minus. -/
def neg : Dbl → Dbl
  | fin q => fin (-q)
  | posInf => negInf
  | negInf => posInf
  | nan => nan

/-- The exact sum `a + b` of doubles. -/
def add : Dbl → Dbl → Dbl
  | fin a, fin b => fin (a + b)
  | fin _, posInf => posInf
  | fin _, negInf => negInf
  | posInf, fin _ => posInf
  | posInf, posInf => posInf
  | negInf, fin _ => negInf
  | negInf, negInf => negInf
  | _, _ => nan

/-- The exact difference `a - b` of doubles. -/
def sub (a b : Dbl) : Dbl := add a (neg b)

/-- The exact product `a * b` of doubles. -/
def mul : Dbl → Dbl → Dbl
  | fin a, fin b => fin (a * b)
  | fin a, posInf => if a = 0 then nan else infOfSign a
  | fin a, negInf => if a = 0 then nan else infOfSign (-a)
  | posInf, fin b => if b = 0 then nan else infOfSign b
  | negInf, fin b => if b = 0 then nan else infOfSign (-b)
  | posInf, posInf => posInf
  | posInf, negInf => negInf
  | negInf, posInf => negInf
  | negInf, negInf => posInf
  | _, _ => nan

/-- The exact quotient `a / b` of doubles; never throws, a zero divisor yields NaN or an
infinity. -/
def div : Dbl → Dbl → Dbl
  | fin a, fin b =>
    if b = 0 then (if a = 0 then nan else infOfSign a) else fin (a / b)
  | fin _, posInf => fin 0
  | fin _, negInf => fin 0
  | posInf, fin b => if 0 ≤ b then posInf else negInf
  | negInf, fin b => if 0 ≤ b then negInf else posInf
  | _, _ => nan

end Dbl

/-! ## Rounding to binary64

The exact operations of `Dbl` above give the value an operation has in exact arithmetic.  IEEE 754
defines the result of an operation on doubles as that value rounded to the nearest double, ties to
the double with an even significand; `roundBinary64` is this rounding, with gradual underflow and
overflow to an infinity, and `fadd`, `fsub`, `fmul`, `fdiv` are the operations of C++ on
`double`. -/

/-- The nearest integer to `y`, a tie going to the even neighbour. -/
def roundHalfEven (y : ℚ) : ℤ :=
  if y - ⌊y⌋ < 1 / 2 then ⌊y⌋
  else if 1 / 2 < y - ⌊y⌋ then ⌊y⌋ + 1
  else if ⌊y⌋ % 2 = 0 then ⌊y⌋ else ⌊y⌋ + 1

/-- The binary64 exponent of a non-zero `x`: the position of its leading bit, and `-1022` for the
subnormal range. -/
def exponent (x : ℚ) : ℤ := max (Int.log 2 |x|) (-1022)

/-- The distance between neighbouring doubles at the magnitude of `x`: a significand has 53
bits. -/
def ulp (x : ℚ) : ℚ := (2 : ℚ) ^ (exponent x - 52)

/-- The magnitude of `x` rounded to a multiple of `ulp x`. -/
def roundMagnitude (x : ℚ) : ℚ := (roundHalfEven (|x| / ulp x) : ℚ) * ulp x

/-- The double nearest to `x`; a magnitude that rounds to `2^1024` or more overflows. -/
def roundBinary64 (x : ℚ) : Dbl :=
  if (2 : ℚ) ^ (1024 : ℕ) ≤ roundMagnitude x then
    (if 0 < x then Dbl.posInf else Dbl.negInf)
  else
    Dbl.fin (if 0 ≤ x then roundMagnitude x else -roundMagnitude x)

/-- The rounding of an exact result to a double; the special values stay as they are. -/
def Dbl.round : Dbl → Dbl
  | Dbl.fin q => roundBinary64 q
  | d => d

/-- The C++ `a + b` on `double`. -/
def Dbl.fadd (a b : Dbl) : Dbl := (a.add b).round

/-- The C++ `a - b` on `double`. -/
def Dbl.fsub (a b : Dbl) : Dbl := (a.sub b).round

/-- The C++ `a * b` on `double`. -/
def Dbl.fmul (a b : Dbl) : Dbl := (a.mul b).round

/-- The C++ `a / b` on `double`. -/
def Dbl.fdiv (a b : Dbl) : Dbl := (a.div b).round

/-! ## Exceptions -/

/-- What a C++ call can raise instead of returning. -/
inductive Exn where
  | runtime_error (what : String)
  | invalid_argument (what : String)
  | out_of_range (what : String)
  | undefined_behaviour
  deriving DecidableEq

/-! ## The score table -/

/-- The rows of the score file, each row the list of its fields. -/
abbrev ScoreTable := List (List String)

/-- The constant `scoreFile`. -/
def scoreFile : String := "topologySequenceScoreTable.cnf"

/-- The function `getScoreTable`: throws when the score file does not exist. -/
def getScoreTable (file : Option ScoreTable) : Except Exn ScoreTable :=
  match file with
  | none => .error (.runtime_error ("Couldn't find file " ++ scoreFile))
  | some table => .ok table

/-- The expression `line[i]` on a `vector<string>`. -/
def index (line : List String) (i : Nat) : Except Exn String :=
  match (line)[i]? with
  | some s => .ok s
  | none => .error .undefined_behaviour

/-- The loop condition of `getScoreTuple`:
`methodName == line[0] and G1Name == line[1] and G2Name == line[2]`, evaluated left to right
with short-circuit. -/
def lineMatches (methodName G1Name G2Name : String) (line : List String) : Except Exn Bool := do
  let f0 ← index line 0
  if methodName = f0 then
    let f1 ← index line 1
    if G1Name = f1 then
      let f2 ← index line 2
      pure (decide (G2Name = f2))
    else pure false
  else pure false

/-- The `for` loop of `getScoreTuple` followed by its final `throw`. -/
def getScoreTupleLoop (methodName G1Name G2Name : String) :
    ScoreTable → Except Exn (List String)
  | [] => .error (.runtime_error
      ("Couldn't find entry in " ++ scoreFile ++ " for " ++ methodName ++ " " ++ G1Name
        ++ " " ++ G2Name))
  | line :: rest => do
    if (← lineMatches methodName G1Name G2Name line) then
      pure line
    else
      getScoreTupleLoop methodName G1Name G2Name rest

/-- The function `getScoreTuple`. -/
def getScoreTuple (file : Option ScoreTable) (methodName G1Name G2Name : String) :
    Except Exn (List String) := do
  let scoreTable ← getScoreTable file
  getScoreTupleLoop methodName G1Name G2Name scoreTable

/-- The function `getTopScore`. -/
def getTopScore (stod : String → Except Exn Dbl) (file : Option ScoreTable)
    (methodName G1Name G2Name : String) : Except Exn Dbl := do
  let tuple ← getScoreTuple file methodName G1Name G2Name
  stod (← index tuple 3)

/-- The function `getSeqScore`. -/
def getSeqScore (stod : String → Except Exn Dbl) (file : Option ScoreTable)
    (methodName G1Name G2Name : String) : Except Exn Dbl := do
  let tuple ← getScoreTuple file methodName G1Name G2Name
  stod (← index tuple 4)

/-- The function `betaDerivedAlpha`. -/
def betaDerivedAlpha (stod : String → Except Exn Dbl) (file : Option ScoreTable)
    (methodName G1Name G2Name : String) (beta : Dbl) : Except Exn Dbl := do
  let topScore ← getTopScore stod file methodName G1Name G2Name
  let seqScore ← getSeqScore stod file methodName G1Name G2Name
  let topFactor := beta.mul topScore
  let seqFactor := ((Dbl.fin 1).sub beta).mul seqScore
  pure (topFactor.div (topFactor.add seqFactor))

/-- The function `betaDerivedAlpha` with the arithmetic of C++ on `double`: every operation
rounds its exact result to binary64. -/
def betaDerivedAlphaBinary64 (stod : String → Except Exn Dbl) (file : Option ScoreTable)
    (methodName G1Name G2Name : String) (beta : Dbl) : Except Exn Dbl := do
  let topScore ← getTopScore stod file methodName G1Name G2Name
  let seqScore ← getSeqScore stod file methodName G1Name G2Name
  let topFactor := beta.fmul topScore
  let seqFactor := ((Dbl.fin 1).fsub beta).fmul seqScore
  pure (topFactor.fdiv (topFactor.fadd seqFactor))

/-! ## Graphs, arguments, methods -/

/-- A `Graph`, of which `methodSelector.cpp` uses only `getName()`. -/
structure Graph where
  name : String
  deriving DecidableEq

/-- The accessor `Graph::getName`. -/
def Graph.getName (G : Graph) : String := G.name

/-- The `ArgumentParser`: its maps `strings`, `doubles` and `bools`, read with `operator[]`, which
yields the empty string, `0` and `false` for a key that was never set. -/
structure ArgumentParser where
  strings : String → String
  doubles : String → Dbl
  bools : String → Bool

/-- A member function called on a `SANA` object after its construction. -/
inductive SanaCall where
  | enableRestartScheme (tnew : Dbl) (iterperstep numcand : Nat) (tcand tfin : Dbl)
  | setT_INITIALAutomatically
  | setT_DECAYAutomatically
  deriving DecidableEq

/-- The object a `new` expression of `methodSelector.cpp` builds: the class and the constructor
arguments.  The pointer `&M` that `TabuSearch`, `SANA` and `HillClimbing` receive refers to the
caller's `MeasureCombination` and is not repeated here. -/
inductive Method (Measure : Type) where
  | NoneMethod (G1 G2 : Graph) (aligFile : String)
  | GreedyLCCS (G1 G2 : Graph) (startAligName : String)
  | WeightedAlignmentVoter (G1 G2 : Graph) (waveNodeSim : Measure)
  | LGraalWrapper (G1 G2 : Graph) (alpha iters seconds : Dbl)
  | HubAlignWrapper (G1 G2 : Graph) (alpha : Dbl)
  | TabuSearch (G1 G2 : Graph) (minutes : Dbl) (ntabus nneighbors : Nat) (nodeTabus : Bool)
  | SANA (G1 G2 : Graph) (T_initial T_decay minutes : Dbl) (calls : List SanaCall)
  | HillClimbing (G1 G2 : Graph) (startAligName : String)
  | RandomAligner (G1 G2 : Graph)
  deriving DecidableEq

/-- What `methodSelector.cpp` uses and does not define: `std::stod`, the conversion of a `double`
to `uint`, and the member functions of `MeasureCombination` (type `MC`).  A member function that
changes the combination returns the combination it leaves behind, whether it throws or not. -/
structure Ext (MC Measure : Type) where
  stod : String → Except Exn Dbl
  toUint : Dbl → Nat
  getMeasure : MC → String → Except Exn Measure
  setAlphaBasedWeights : MC → String → Dbl → Except Exn Unit × MC
  printWeights : MC → String

/-- What the functions of `methodSelector.cpp` can change: the `MeasureCombination` passed by
reference and the text written to `cerr`. -/
structure World (MC : Type) where
  M : MC
  cerr : String
  deriving DecidableEq

/-- Writing `text` to `cerr`. -/
def World.write {MC : Type} (w : World MC) (text : String) : World MC :=
  { w with cerr := w.cerr ++ text }

/-- The function `initLgraal`. -/
def initLgraal {Measure : Type} (stod : String → Except Exn Dbl) (file : Option ScoreTable)
    (G1 G2 : Graph) (args : ArgumentParser) : Except Exn (Method Measure) := do
  let objFunType := args.strings "-objfuntype"
  let alpha ←
    if objFunType = "generic" then
      Except.error (Exn.runtime_error "generic objective function not supported for L-GRAAL")
    else if objFunType = "alpha" then
      pure (args.doubles "-alpha")
    else if objFunType = "beta" then
      let beta := args.doubles "-beta"
      betaDerivedAlpha stod file "lgraal" G1.getName G2.getName beta
    else
      Except.error (Exn.runtime_error ("unknown value of -objfuntype: " ++ objFunType))
  let iters := args.doubles "-lgraaliter"
  let seconds := (args.doubles "-t").mul (Dbl.fin 60)
  pure (Method.LGraalWrapper G1 G2 alpha iters seconds)

/-- The function `initHubAlign`. -/
def initHubAlign {Measure : Type} (stod : String → Except Exn Dbl) (file : Option ScoreTable)
    (G1 G2 : Graph) (args : ArgumentParser) : Except Exn (Method Measure) := do
  let objFunType := args.strings "-objfuntype"
  let alpha ←
    if objFunType = "generic" then
      Except.error (Exn.runtime_error "generic objective function not supported for HubAlign")
    else if objFunType = "alpha" then
      pure (args.doubles "-alpha")
    else if objFunType = "beta" then
      let beta := args.doubles "-beta"
      betaDerivedAlpha stod file "lgraal" G1.getName G2.getName beta
    else
      Except.error (Exn.runtime_error ("unknown value of -objfuntype: " ++ objFunType))
  pure (Method.HubAlignWrapper G1 G2 ((Dbl.fin 1).sub alpha))

/-- The last three statements of `updateObjFun`: the header line and the weights on `cerr`. -/
def printObjFun {MC Measure : Type} (ext : Ext MC Measure) (methodName : String)
    (w : World MC) : World MC :=
  ((w.write ("=== " ++ methodName ++ " -- optimize: ===" ++ "\n")).write
    (ext.printWeights w.M)).write "\n"

/-- The function `updateObjFun`: the outcome and the world it leaves. -/
def updateObjFun {MC Measure : Type} (ext : Ext MC Measure) (file : Option ScoreTable)
    (methodName : String) (G1 G2 : Graph) (args : ArgumentParser) (w : World MC) :
    Except Exn Unit × World MC :=
  let objFunType := args.strings "-objfuntype"
  if objFunType = "generic" then
    (.ok (), printObjFun ext methodName w)
  else if objFunType = "alpha" ∨ objFunType = "beta" then
    let topMeasure := args.strings "-topmeasure"
    let w1 :=
      if topMeasure ≠ "ec" ∧ topMeasure ≠ "s3" ∧ topMeasure ≠ "wec" then
        w.write ("Warning: -topmeasure is " ++ topMeasure ++ "\n")
      else w
    let alpha : Except Exn Dbl :=
      if objFunType = "alpha" then
        .ok (args.doubles "-alpha")
      else
        let methodId := methodName ++ topMeasure
        let beta := args.doubles "-beta"
        betaDerivedAlpha ext.stod file methodId G1.getName G2.getName beta
    match alpha with
    | .error e => (.error e, w1)
    | .ok a =>
      match ext.setAlphaBasedWeights w1.M topMeasure a with
      | (.error e, M1) => (.error e, { w1 with M := M1 })
      | (.ok (), M1) => (.ok (), printObjFun ext methodName { w1 with M := M1 })
  else
    (.error (.runtime_error ("unknown value of -objfuntype: " ++ objFunType)), w)

/-- The function `initTabuSearch`. -/
def initTabuSearch {MC Measure : Type} (ext : Ext MC Measure) (file : Option ScoreTable)
    (G1 G2 : Graph) (args : ArgumentParser) (w : World MC) :
    Except Exn (Method Measure) × World MC :=
  match updateObjFun ext file "tabu" G1 G2 args w with
  | (.error e, w1) => (.error e, w1)
  | (.ok (), w1) =>
    let minutes := args.doubles "-t"
    let ntabus := ext.toUint (args.doubles "-ntabus")
    let nneighbors := ext.toUint (args.doubles "-nneighbors")
    let nodeTabus := args.bools "-nodetabus"
    (.ok (Method.TabuSearch G1 G2 minutes ntabus nneighbors nodeTabus), w1)

/-- The statements of `initSANA` after the call of `updateObjFun`; they leave the world as it
is. -/
def initSANABody {Measure : Type} (stod : String → Except Exn Dbl) (toUint : Dbl → Nat)
    (G1 G2 : Graph) (args : ArgumentParser) : Except Exn (Method Measure) := do
  let T_initial ←
    if args.strings "-tinitial" ≠ "auto" then stod (args.strings "-tinitial")
    else pure (Dbl.fin 0)
  let T_decay ←
    if args.strings "-tdecay" ≠ "auto" then stod (args.strings "-tdecay")
    else pure (Dbl.fin 0)
  let minutes := args.doubles "-t"
  let restart : List SanaCall :=
    if args.bools "-restart" then
      let tnew := args.doubles "-tnew"
      let iterperstep := toUint (args.doubles "-iterperstep")
      let numcand := toUint (args.doubles "-numcand")
      let tcand := args.doubles "-tcand"
      let tfin := args.doubles "-tfin"
      [SanaCall.enableRestartScheme tnew iterperstep numcand tcand tfin]
    else []
  let autoInitial : List SanaCall :=
    if args.strings "-tinitial" = "auto" then [SanaCall.setT_INITIALAutomatically] else []
  let autoDecay : List SanaCall :=
    if args.strings "-tdecay" = "auto" then [SanaCall.setT_DECAYAutomatically] else []
  pure (Method.SANA G1 G2 T_initial T_decay minutes (restart ++ autoInitial ++ autoDecay))

/-- The function `initSANA`. -/
def initSANA {MC Measure : Type} (ext : Ext MC Measure) (file : Option ScoreTable)
    (G1 G2 : Graph) (args : ArgumentParser) (w : World MC) :
    Except Exn (Method Measure) × World MC :=
  match updateObjFun ext file "sana" G1 G2 args w with
  | (.error e, w1) => (.error e, w1)
  | (.ok (), w1) => (initSANABody ext.stod ext.toUint G1 G2 args, w1)

/-- The function `initMethod`. -/
def initMethod {MC Measure : Type} (ext : Ext MC Measure) (file : Option ScoreTable)
    (G1 G2 : Graph) (args : ArgumentParser) (w : World MC) :
    Except Exn (Method Measure) × World MC :=
  let aligFile := args.strings "-eval"
  if aligFile ≠ "" then
    (.ok (Method.NoneMethod G1 G2 aligFile), w)
  else
    let name := args.strings "-method"
    let startAligName := args.strings "-startalignment"
    if name = "greedylccs" then
      (.ok (Method.GreedyLCCS G1 G2 startAligName), w)
    else if name = "wave" then
      match ext.getMeasure w.M (args.strings "-wavenodesim") with
      | .error e => (.error e, w)
      | .ok waveNodeSim => (.ok (Method.WeightedAlignmentVoter G1 G2 waveNodeSim), w)
    else if name = "lgraal" then
      (initLgraal ext.stod file G1 G2 args, w)
    else if name = "hubalign" then
      (initHubAlign ext.stod file G1 G2 args, w)
    else if name = "tabu" then
      initTabuSearch ext file G1 G2 args w
    else if name = "sana" then
      initSANA ext file G1 G2 args w
    else if name = "hc" then
      (.ok (Method.HillClimbing G1 G2 startAligName), w)
    else if name = "random" then
      (.ok (Method.RandomAligner G1 G2), w)
    else if name = "none" then
      (.ok (Method.NoneMethod G1 G2 startAligName), w)
    else
      (.error (.runtime_error ("Error: unknown method: " ++ name)), w)

/-! ## A decimal reader

`std::stod` is a parameter of the embedding.  `stodDecimal` is one instance of it, used to
evaluate the definitions on concrete score tables.  It reads the plain decimal literals
`[+-]digits[.digits]` with the value `std::stod` gives them; on every other string it reports
`invalid_argument` (the exponent, hexadecimal, `inf`/`nan` forms, leading white space and
trailing characters that `std::stod` also accepts are outside this instance). -/

/-- Reads a run of decimal digits: the number read so far, how many digits were read, and the
rest of the input. -/
def readDigits : List Char → Nat → Nat → Nat × Nat × List Char
  | [], acc, n => (acc, n, [])
  | c :: cs, acc, n =>
    if c.isDigit then readDigits cs (10 * acc + (c.toNat - 48)) (n + 1) else (acc, n, c :: cs)

/-- Reads an unsigned literal `digits[.digits]` that spans the whole input. -/
def readUnsigned (cs : List Char) : Option ℚ :=
  match readDigits cs 0 0 with
  | (ip, n, []) => if n = 0 then none else some (ip : ℚ)
  | (ip, n, c :: rest) =>
    if c = '.' then
      match readDigits rest 0 0 with
      | (fp, k, []) => if n + k = 0 then none else some ((ip : ℚ) + (fp : ℚ) / (10 : ℚ) ^ k)
      | _ => none
    else none

/-- An instance of `std::stod` on plain decimal literals. -/
def stodDecimal (s : String) : Except Exn Dbl :=
  let r : Option ℚ :=
    match s.toList with
    | '-' :: cs => (readUnsigned cs).map (fun q => -q)
    | '+' :: cs => readUnsigned cs
    | cs => readUnsigned cs
  match r with
  | some q => .ok (.fin q)
  | none => .error (.invalid_argument "stod")


/-! ## Predicates used in the statements -/

/-- The fields 0, 1 and 2 of `line` are exactly the three keys (string equality). -/
def hasKey (methodName G1Name G2Name : String) (line : List String) : Bool :=
  decide ((line)[0]? = some methodName ∧ (line)[1]? = some G1Name ∧ (line)[2]? = some G2Name)

/-- The text `s` occurs in the message `msg`. -/
def Mentions (msg s : String) : Prop := s.data <:+: msg.data

instance (msg s : String) : Decidable (Mentions msg s) :=
  inferInstanceAs (Decidable (s.data <:+: msg.data))

/-! ## Instances for evaluation -/

/-- An `ArgumentParser` whose maps hold the listed entries. -/
def ArgumentParser.ofLists (ss : List (String × String)) (ds : List (String × Dbl))
    (bs : List (String × Bool)) : ArgumentParser where
  strings := fun k => (ss.lookup k).getD ""
  doubles := fun k => (ds.lookup k).getD (Dbl.fin 0)
  bools := fun k => (bs.lookup k).getD false

/-- Modelled from the spec: `MeasureCombination::setAlphaBasedWeights`, which
`methodSelector.cpp` calls and does not define.  It "sets the named measure's weight to alpha;
rescales every other measure already present in the combination so their weights sum to
(1 − alpha), preserving their relative proportions".  A combination is the list of its measures
with their weights. -/
def setAlphaBasedWeightsModel (M : List (String × Dbl)) (topMeasure : String) (alpha : Dbl) :
    Except Exn Unit × List (String × Dbl) :=
  let others := M.filter (fun p => p.1 ≠ topMeasure)
  let total := (others.map (fun p => p.2)).foldl Dbl.add (Dbl.fin 0)
  (.ok (), M.map (fun p =>
    if p.1 = topMeasure then (p.1, alpha)
    else (p.1, (p.2.mul ((Dbl.fin 1).sub alpha)).div total)))

/-- An instance of the parameters: `stodDecimal` for `std::stod`, truncation for the conversion to
`uint` (`0` where C++ leaves the conversion undefined), and combinations that are lists of
weighted measure names. -/
def sampleExt : Ext (List (String × Dbl)) String where
  stod := stodDecimal
  toUint := fun d =>
    match d with
    | .fin q => if 0 ≤ q ∧ q < 4294967296 then ⌊q⌋.toNat else 0
    | _ => 0
  getMeasure := fun M name =>
    if name ∈ M.map (fun p => p.1) then .ok name
    else .error (.runtime_error ("Measure not found: " ++ name))
  setAlphaBasedWeights := setAlphaBasedWeightsModel
  printWeights := fun M => String.intercalate " " (M.map (fun p => p.1))

/-- A world to start from: equal weights on `ec` and `sequence`, nothing written yet. -/
def sampleWorld : World (List (String × Dbl)) where
  M := [("ec", Dbl.fin (1 / 2)), ("sequence", Dbl.fin (1 / 2))]
  cerr := ""

/-- A score table with one row per method key for the pair `yeast`, `human`. -/
def sampleTable : ScoreTable :=
  [["lgraal", "yeast", "human", "2", "1"],
   ["sanaec", "yeast", "human", "0.5", "0.25"]]

/-- A score table in which two rows carry the same key. -/
def duplicateTable : ScoreTable :=
  [["lgraal", "yeast", "human", "2", "1"],
   ["lgraal", "yeast", "human", "3", "4"]]

/-- A score table whose `lgraal` row has topology baseline `0` and sequence baseline `1`. -/
def zeroTopTable : ScoreTable := [["lgraal", "yeast", "human", "0", "1"]]

/-- A score table whose `lgraal` row has topology baseline `1` and sequence baseline `0`. -/
def zeroSeqTable : ScoreTable := [["lgraal", "yeast", "human", "1", "0"]]

/-- A score table with a `hubalign` row and no `lgraal` row for the pair `yeast`, `human`. -/
def hubalignTable : ScoreTable := [["hubalign", "yeast", "human", "2", "1"]]

/-- The graph named `yeast`. -/
def yeast : Graph := { name := "yeast" }

/-- The graph named `human`. -/
def human : Graph := { name := "human" }

/-- Arguments that set `-eval` together with a method and an objective mode that the `lgraal`
branch rejects. -/
def evalArgs : ArgumentParser :=
  ArgumentParser.ofLists
    [("-eval", "yeast-human.align"), ("-method", "lgraal"), ("-objfuntype", "bogus")] [] []

/-- Arguments that name a method `initMethod` does not know. -/
def unknownMethodArgs : ArgumentParser :=
  ArgumentParser.ofLists [("-method", "magna"), ("-objfuntype", "alpha")]
    [("-alpha", Dbl.fin (1 / 2))] []

/-- Arguments with an objective mode that is none of `generic`, `alpha`, `beta`. -/
def unknownObjFunArgs : ArgumentParser :=
  ArgumentParser.ofLists [("-method", "sana"), ("-objfuntype", "gamma"), ("-topmeasure", "ec")]
    [("-alpha", Dbl.fin (1 / 2))] []

/-- Arguments selecting the beta mode with `beta = 1/2`. -/
def betaArgs : ArgumentParser :=
  ArgumentParser.ofLists [("-method", "hubalign"), ("-objfuntype", "beta")]
    [("-beta", Dbl.fin (1 / 2)), ("-lgraaliter", Dbl.fin 1000), ("-t", Dbl.fin 5)] []

/-- A double in `[0, 1]`: `0x1.bb9876f8130c4p-3`. -/
def betaBelow : ℚ := 7803815713648836 / 2 ^ 55

/-- The double that follows `betaBelow`: `0x1.bb9876f8130c5p-3`. -/
def betaAbove : ℚ := 7803815713648837 / 2 ^ 55

/-! ## Lemmas on the embedding -/

@[simp] theorem bind_ok {α β : Type} (a : α) (f : α → Except Exn β) :
    (Except.ok a >>= f) = f a := rfl

@[simp] theorem bind_error {α β : Type} (e : Exn) (f : α → Except Exn β) :
    ((Except.error e : Except Exn α) >>= f) = Except.error e := rfl

@[simp] theorem map_ok {α β : Type} (a : α) (f : α → β) :
    (f <$> (Except.ok a : Except Exn α)) = Except.ok (f a) := rfl

@[simp] theorem map_error {α β : Type} (e : Exn) (f : α → β) :
    (f <$> (Except.error e : Except Exn α)) = Except.error e := rfl

@[simp] theorem pure_eq_ok {α : Type} (a : α) : (pure a : Except Exn α) = Except.ok a := rfl

theorem index_of_getElem? {line : List String} {i : Nat} {s : String}
    (h : (line)[i]? = some s) : index line i = .ok s := by
  simp [index, h]

theorem lineMatches_of_length (methodName G1Name G2Name : String) {line : List String}
    (hlen : 3 ≤ line.length) :
    lineMatches methodName G1Name G2Name line = .ok (hasKey methodName G1Name G2Name line) := by
  match line, hlen with
  | f0 :: f1 :: f2 :: rest, _ =>
    by_cases h0 : methodName = f0 <;> by_cases h1 : G1Name = f1 <;> by_cases h2 : G2Name = f2 <;>
      simp [lineMatches, index, hasKey, h0, h1, h2, eq_comm]

theorem getScoreTupleLoop_eq_find (methodName G1Name G2Name : String) (table : ScoreTable)
    (hwf : ∀ line ∈ table, 3 ≤ line.length) :
    getScoreTupleLoop methodName G1Name G2Name table =
      match table.find? (hasKey methodName G1Name G2Name) with
      | some line => .ok line
      | none => .error (.runtime_error
          ("Couldn't find entry in " ++ scoreFile ++ " for " ++ methodName ++ " " ++ G1Name
            ++ " " ++ G2Name)) := by
  induction table with
  | nil => simp [getScoreTupleLoop]
  | cons line rest ih =>
    have hlen : 3 ≤ line.length := hwf line (List.mem_cons_self _ _)
    have hrest : ∀ l ∈ rest, 3 ≤ l.length := fun l hl => hwf l (List.mem_cons_of_mem _ hl)
    rw [getScoreTupleLoop, lineMatches_of_length _ _ _ hlen]
    cases hk : hasKey methodName G1Name G2Name line
    · simp [List.find?_cons, hk, ih hrest]
    · simp [List.find?_cons, hk]

theorem getScoreTuple_eq_find (methodName G1Name G2Name : String) (table : ScoreTable)
    (hwf : ∀ line ∈ table, 3 ≤ line.length) :
    getScoreTuple (some table) methodName G1Name G2Name =
      match table.find? (hasKey methodName G1Name G2Name) with
      | some line => .ok line
      | none => .error (.runtime_error
          ("Couldn't find entry in " ++ scoreFile ++ " for " ++ methodName ++ " " ++ G1Name
            ++ " " ++ G2Name)) := by
  simp [getScoreTuple, getScoreTable, getScoreTupleLoop_eq_find _ _ _ _ hwf]

theorem mentions_of_data {msg s : String} (a b : String)
    (h : msg.data = a.data ++ s.data ++ b.data) : Mentions msg s :=
  ⟨a.data, b.data, h.symm⟩

theorem mentions_notFound (methodName G1Name G2Name : String) :
    Mentions ("Couldn't find entry in " ++ scoreFile ++ " for " ++ methodName ++ " " ++ G1Name
        ++ " " ++ G2Name) methodName ∧
    Mentions ("Couldn't find entry in " ++ scoreFile ++ " for " ++ methodName ++ " " ++ G1Name
        ++ " " ++ G2Name) G1Name ∧
    Mentions ("Couldn't find entry in " ++ scoreFile ++ " for " ++ methodName ++ " " ++ G1Name
        ++ " " ++ G2Name) G2Name := by
  refine ⟨?_, ?_, ?_⟩
  · exact mentions_of_data ("Couldn't find entry in " ++ scoreFile ++ " for ")
      (" " ++ G1Name ++ " " ++ G2Name) (by simp [String.data_append, List.append_assoc])
  · exact mentions_of_data ("Couldn't find entry in " ++ scoreFile ++ " for " ++ methodName ++ " ")
      (" " ++ G2Name) (by simp [String.data_append, List.append_assoc])
  · exact mentions_of_data ("Couldn't find entry in " ++ scoreFile ++ " for " ++ methodName ++ " "
      ++ G1Name ++ " ") "" (by simp [String.data_append, List.append_assoc])

theorem betaDerivedAlpha_of_row (stod : String → Except Exn Dbl) (table : ScoreTable)
    (methodName G1Name G2Name : String) (beta : Dbl) (line : List String) (s3 s4 : String)
    (top seq : Dbl)
    (hwf : ∀ l ∈ table, 3 ≤ l.length)
    (hfind : table.find? (hasKey methodName G1Name G2Name) = some line)
    (h3 : (line)[3]? = some s3) (h4 : (line)[4]? = some s4)
    (htop : stod s3 = .ok top) (hseq : stod s4 = .ok seq) :
    betaDerivedAlpha stod (some table) methodName G1Name G2Name beta =
      .ok ((beta.mul top).div ((beta.mul top).add (((Dbl.fin 1).sub beta).mul seq))) := by
  simp [betaDerivedAlpha, getTopScore, getSeqScore, getScoreTuple_eq_find _ _ _ _ hwf, hfind,
    index_of_getElem? h3, index_of_getElem? h4, htop, hseq]

theorem betaDerivedAlpha_of_no_row (stod : String → Except Exn Dbl) (table : ScoreTable)
    (methodName G1Name G2Name : String) (beta : Dbl)
    (hwf : ∀ l ∈ table, 3 ≤ l.length)
    (hfind : table.find? (hasKey methodName G1Name G2Name) = none) :
    betaDerivedAlpha stod (some table) methodName G1Name G2Name beta =
      .error (.runtime_error
        ("Couldn't find entry in " ++ scoreFile ++ " for " ++ methodName ++ " " ++ G1Name
          ++ " " ++ G2Name)) := by
  simp [betaDerivedAlpha, getTopScore, getScoreTuple_eq_find _ _ _ _ hwf, hfind]

theorem alpha_of_finite (beta top seq : ℚ) (hden : beta * top + (1 - beta) * seq ≠ 0) :
    ((Dbl.fin beta).mul (.fin top)).div
        (((Dbl.fin beta).mul (.fin top)).add (((Dbl.fin 1).sub (.fin beta)).mul (.fin seq))) =
      .fin (beta * top / (beta * top + (1 - beta) * seq)) := by
  have hden2 : beta * top + (1 + -beta) * seq ≠ 0 := by
    rw [← sub_eq_add_neg]; exact hden
  simp [Dbl.mul, Dbl.sub, Dbl.add, Dbl.neg, Dbl.div, hden2, sub_eq_add_neg]

theorem stodDecimal_zero : stodDecimal "0" = .ok (.fin 0) := by
  simp [stodDecimal, readUnsigned, readDigits]

theorem stodDecimal_one : stodDecimal "1" = .ok (.fin 1) := by
  simp [stodDecimal, readUnsigned, readDigits]

theorem stodDecimal_two : stodDecimal "2" = .ok (.fin 2) := by
  simp [stodDecimal, readUnsigned, readDigits]

theorem roundHalfEven_sub_le (y : ℚ) : |(roundHalfEven y : ℚ) - y| ≤ 1 / 2 := by
  have h1 : (⌊y⌋ : ℚ) ≤ y := Int.floor_le y
  have h2 : y < ⌊y⌋ + 1 := Int.lt_floor_add_one y
  unfold roundHalfEven
  rw [abs_le]
  split_ifs <;> constructor <;> push_cast <;> linarith

theorem floor_le_roundHalfEven (y : ℚ) : ⌊y⌋ ≤ roundHalfEven y := by
  unfold roundHalfEven
  split_ifs <;> omega

theorem roundHalfEven_le_floor_add_one (y : ℚ) : roundHalfEven y ≤ ⌊y⌋ + 1 := by
  unfold roundHalfEven
  split_ifs <;> omega

theorem roundHalfEven_of_near (y : ℚ) (n : ℤ) (h : |y - n| < 1 / 2) : roundHalfEven y = n := by
  have h1 := roundHalfEven_sub_le y
  rw [abs_lt] at h
  rw [abs_le] at h1
  have h3 : ((roundHalfEven y : ℤ) : ℚ) - n < 1 := by linarith
  have h4 : (n : ℚ) - (roundHalfEven y : ℤ) < 1 := by linarith
  have h5 : roundHalfEven y - n < 1 := by exact_mod_cast h3
  have h6 : n - roundHalfEven y < 1 := by exact_mod_cast h4
  omega

theorem roundHalfEven_intCast (n : ℤ) : roundHalfEven (n : ℚ) = n :=
  roundHalfEven_of_near _ n (by simp)

theorem roundHalfEven_tie (n : ℤ) (hn : n % 2 = 0) : roundHalfEven ((n : ℚ) + 1 / 2) = n := by
  have hf : ⌊(n : ℚ) + 1 / 2⌋ = n := by
    rw [Int.floor_eq_iff]; constructor <;> norm_num
  unfold roundHalfEven
  rw [hf]
  norm_num [hn]

theorem roundHalfEven_mono {a b : ℚ} (h : a ≤ b) : roundHalfEven a ≤ roundHalfEven b := by
  have hfl : ⌊a⌋ ≤ ⌊b⌋ := Int.floor_mono h
  rcases hfl.eq_or_lt with he | hl
  · unfold roundHalfEven
    rw [he]
    split_ifs <;> first | omega | linarith
  · calc roundHalfEven a ≤ ⌊a⌋ + 1 := roundHalfEven_le_floor_add_one a
      _ ≤ ⌊b⌋ := hl
      _ ≤ roundHalfEven b := floor_le_roundHalfEven b

theorem ulp_pos (x : ℚ) : 0 < ulp x := by
  unfold ulp; positivity

theorem exponent_ge (x : ℚ) : -1022 ≤ exponent x := le_max_right _ _

theorem roundMagnitude_nonneg (x : ℚ) : 0 ≤ roundMagnitude x := by
  unfold roundMagnitude
  have h0 : (0 : ℚ) ≤ |x| / ulp x := div_nonneg (abs_nonneg x) (ulp_pos x).le
  have h1 : (0 : ℤ) ≤ roundHalfEven (|x| / ulp x) := by
    have := roundHalfEven_mono h0
    rwa [show ((0 : ℚ)) = ((0 : ℤ) : ℚ) by simp, roundHalfEven_intCast] at this
  have h2 : (0 : ℚ) ≤ (roundHalfEven (|x| / ulp x) : ℚ) := by exact_mod_cast h1
  exact mul_nonneg h2 (ulp_pos x).le

theorem roundMagnitude_sub_le (x : ℚ) (hx : 0 ≤ x) : |roundMagnitude x - x| ≤ ulp x / 2 := by
  have hu := ulp_pos x
  have h := roundHalfEven_sub_le (|x| / ulp x)
  have e : roundMagnitude x - x = ((roundHalfEven (|x| / ulp x) : ℚ) - |x| / ulp x) * ulp x := by
    unfold roundMagnitude
    rw [abs_of_nonneg hx]
    field_simp
  rw [e, abs_mul, abs_of_pos hu]
  calc |(roundHalfEven (|x| / ulp x) : ℚ) - |x| / ulp x| * ulp x ≤ 1 / 2 * ulp x :=
        mul_le_mul_of_nonneg_right h hu.le
    _ = ulp x / 2 := by ring

theorem exponent_of_normal (x : ℚ) (hx : (2 : ℚ) ^ (-1022 : ℤ) ≤ x) :
    exponent x = Int.log 2 x := by
  have hpos : 0 < x := lt_of_lt_of_le (by positivity) hx
  unfold exponent
  rw [abs_of_pos hpos]
  apply max_eq_left
  have := (Int.zpow_le_iff_le_log (b := 2) (by norm_num) (x := -1022) hpos).1
    (by simpa using hx)
  exact this

theorem ulp_le_of_normal (x : ℚ) (hx : (2 : ℚ) ^ (-1022 : ℤ) ≤ x) :
    ulp x ≤ x * (2 : ℚ) ^ (-52 : ℤ) := by
  have hpos : 0 < x := lt_of_lt_of_le (by positivity) hx
  unfold ulp
  rw [exponent_of_normal x hx, sub_eq_add_neg, zpow_add₀ (by norm_num)]
  have h := Int.zpow_log_le_self (b := 2) (by norm_num) hpos
  simp only [Nat.cast_ofNat] at h
  exact mul_le_mul_of_nonneg_right h (by positivity)

theorem ulp_le (x : ℚ) (hpos : 0 < x) :
    ulp x ≤ x * (2 : ℚ) ^ (-52 : ℤ) + (2 : ℚ) ^ (-1074 : ℤ) := by
  by_cases h : (2 : ℚ) ^ (-1022 : ℤ) ≤ x
  · have : (0 : ℚ) ≤ (2 : ℚ) ^ (-1074 : ℤ) := by positivity
    linarith [ulp_le_of_normal x h]
  · push_neg at h
    have he : exponent x = -1022 := by
      unfold exponent
      apply max_eq_right
      rw [abs_of_pos hpos]
      have := (Int.lt_zpow_iff_log_lt (b := 2) (by norm_num) (x := -1022) hpos).1
        (by simpa using h)
      omega
    unfold ulp
    rw [he]
    have : (0 : ℚ) ≤ x * (2 : ℚ) ^ (-52 : ℤ) := by positivity
    norm_num at this ⊢
    linarith

theorem roundMagnitude_zero : roundMagnitude 0 = 0 := by
  unfold roundMagnitude
  rw [abs_zero, zero_div, show ((0 : ℚ)) = ((0 : ℤ) : ℚ) by simp, roundHalfEven_intCast]
  simp

/-- The rounding error of a value in the normal range is at most `2^-53` of the value. -/
theorem roundMagnitude_normal (x : ℚ) (hx : (2 : ℚ) ^ (-1022 : ℤ) ≤ x) :
    |roundMagnitude x - x| ≤ x * (2 : ℚ) ^ (-53 : ℤ) := by
  have hpos : 0 < x := lt_of_lt_of_le (by positivity) hx
  have h1 := roundMagnitude_sub_le x hpos.le
  have h2 := ulp_le_of_normal x hx
  have e : x * (2 : ℚ) ^ (-53 : ℤ) = x * (2 : ℚ) ^ (-52 : ℤ) / 2 := by
    norm_num; ring
  rw [e]
  exact h1.trans (div_le_div_of_nonneg_right h2 (by norm_num))

/-- The rounding error of a non-negative value, the subnormal range included. -/
theorem roundMagnitude_general (x : ℚ) (hx : 0 ≤ x) :
    |roundMagnitude x - x| ≤ x * (2 : ℚ) ^ (-53 : ℤ) + (2 : ℚ) ^ (-1075 : ℤ) := by
  rcases hx.eq_or_lt with h0 | hpos
  · subst h0
    rw [roundMagnitude_zero]
    norm_num
  · have h1 := roundMagnitude_sub_le x hpos.le
    have h2 := ulp_le x hpos
    have e : x * (2 : ℚ) ^ (-53 : ℤ) + (2 : ℚ) ^ (-1075 : ℤ)
        = (x * (2 : ℚ) ^ (-52 : ℤ) + (2 : ℚ) ^ (-1074 : ℤ)) / 2 := by
      norm_num; ring
    rw [e]
    exact h1.trans (div_le_div_of_nonneg_right h2 (by norm_num))

theorem pow53_mul_ulp (x : ℚ) : ((2 ^ 53 : ℤ) : ℚ) * ulp x = (2 : ℚ) ^ (exponent x + 1) := by
  have h : ((2 ^ 53 : ℤ) : ℚ) = (2 : ℚ) ^ (53 : ℤ) := by norm_num
  unfold ulp
  rw [h, ← zpow_add₀ (by norm_num)]
  congr 1
  ring

theorem pow52_mul_ulp (x : ℚ) : ((2 ^ 52 : ℤ) : ℚ) * ulp x = (2 : ℚ) ^ exponent x := by
  have h : ((2 ^ 52 : ℤ) : ℚ) = (2 : ℚ) ^ (52 : ℤ) := by norm_num
  unfold ulp
  rw [h, ← zpow_add₀ (by norm_num)]
  congr 1
  ring

theorem roundMagnitude_mono {x y : ℚ} (hx : 0 ≤ x) (hxy : x ≤ y) :
    roundMagnitude x ≤ roundMagnitude y := by
  rcases hx.eq_or_lt with h0 | hpos
  · subst h0
    rw [roundMagnitude_zero]
    exact roundMagnitude_nonneg y
  have hypos : 0 < y := lt_of_lt_of_le hpos hxy
  have hlog : Int.log 2 x ≤ Int.log 2 y := Int.log_mono_right hpos hxy
  have hexp : exponent x ≤ exponent y := by
    unfold exponent
    rw [abs_of_pos hpos, abs_of_pos hypos]
    exact max_le_max hlog le_rfl
  rcases hexp.eq_or_lt with he | hl
  · have hu : ulp x = ulp y := by unfold ulp; rw [he]
    unfold roundMagnitude
    rw [abs_of_pos hpos, abs_of_pos hypos, hu]
    have hd : x / ulp y ≤ y / ulp y := div_le_div_of_nonneg_right hxy (ulp_pos y).le
    have := roundHalfEven_mono hd
    have hc : (roundHalfEven (x / ulp y) : ℚ) ≤ (roundHalfEven (y / ulp y) : ℚ) := by
      exact_mod_cast this
    exact mul_le_mul_of_nonneg_right hc (ulp_pos y).le
  · -- different binades
    have hey : exponent y = Int.log 2 y := by
      have := exponent_ge x
      unfold exponent at hl ⊢
      rw [abs_of_pos hypos] at hl ⊢
      apply max_eq_left
      by_contra hc
      push_neg at hc
      rw [max_eq_right hc.le] at hl
      omega
    have hylow : (2 : ℚ) ^ exponent y ≤ y := by
      rw [hey]
      have := Int.zpow_log_le_self (b := 2) (R := ℚ) (by norm_num) hypos
      simpa using this
    have hxup : x < (2 : ℚ) ^ (exponent x + 1) := by
      have h1 := Int.lt_zpow_succ_log_self (b := 2) (R := ℚ) (by norm_num) x
      simp only [Nat.cast_ofNat] at h1
      have h2 : Int.log 2 x + 1 ≤ exponent x + 1 := by
        have : Int.log 2 x ≤ exponent x := by
          unfold exponent; rw [abs_of_pos hpos]; exact le_max_left _ _
        omega
      exact lt_of_lt_of_le h1 (zpow_le_zpow_right₀ (by norm_num) h2)
    -- R x ≤ 2^(e_x+1)
    have hRx : roundMagnitude x ≤ (2 : ℚ) ^ (exponent x + 1) := by
      unfold roundMagnitude
      rw [abs_of_pos hpos]
      have hq : x / ulp x ≤ ((2 ^ 53 : ℤ) : ℚ) := by
        rw [div_le_iff₀ (ulp_pos x)]
        rw [pow53_mul_ulp]
        exact hxup.le
      have := roundHalfEven_mono hq
      rw [roundHalfEven_intCast] at this
      have hc : (roundHalfEven (x / ulp x) : ℚ) ≤ ((2 ^ 53 : ℤ) : ℚ) := by exact_mod_cast this
      calc (roundHalfEven (x / ulp x) : ℚ) * ulp x ≤ ((2 ^ 53 : ℤ) : ℚ) * ulp x :=
            mul_le_mul_of_nonneg_right hc (ulp_pos x).le
        _ = (2 : ℚ) ^ (exponent x + 1) := pow53_mul_ulp x
    have hRy : (2 : ℚ) ^ exponent y ≤ roundMagnitude y := by
      unfold roundMagnitude
      rw [abs_of_pos hypos]
      have hq : ((2 ^ 52 : ℤ) : ℚ) ≤ y / ulp y := by
        rw [le_div_iff₀ (ulp_pos y)]
        rw [pow52_mul_ulp]
        exact hylow
      have := roundHalfEven_mono hq
      rw [roundHalfEven_intCast] at this
      have hc : ((2 ^ 52 : ℤ) : ℚ) ≤ (roundHalfEven (y / ulp y) : ℚ) := by exact_mod_cast this
      calc (2 : ℚ) ^ exponent y = ((2 ^ 52 : ℤ) : ℚ) * ulp y := (pow52_mul_ulp y).symm
        _ ≤ (roundHalfEven (y / ulp y) : ℚ) * ulp y :=
            mul_le_mul_of_nonneg_right hc (ulp_pos y).le
    have hstep : (2 : ℚ) ^ (exponent x + 1) ≤ (2 : ℚ) ^ exponent y :=
      zpow_le_zpow_right₀ (by norm_num) (by omega)
    linarith

theorem exponent_eq (x : ℚ) (e : ℤ) (he : -1022 ≤ e) (hlo : (2 : ℚ) ^ e ≤ x)
    (hhi : x < (2 : ℚ) ^ (e + 1)) : exponent x = e := by
  have hpos : 0 < x := lt_of_lt_of_le (by positivity) hlo
  have h1 : e ≤ Int.log 2 x :=
    (Int.zpow_le_iff_le_log (b := 2) (by norm_num) hpos).1 (by simpa using hlo)
  have h2 : Int.log 2 x < e + 1 :=
    (Int.lt_zpow_iff_log_lt (b := 2) (by norm_num) hpos).1 (by simpa using hhi)
  unfold exponent
  rw [abs_of_pos hpos]
  omega

theorem roundBinary64_of_nonneg (x : ℚ) (hx : 0 ≤ x)
    (hfin : roundMagnitude x < (2 : ℚ) ^ (1024 : ℕ)) :
    roundBinary64 x = Dbl.fin (roundMagnitude x) := by
  unfold roundBinary64
  rw [if_neg (not_le.2 hfin), if_pos hx]

theorem roundBinary64_of_near (x : ℚ) (e n : ℤ) (he : -1022 ≤ e) (hlo : (2 : ℚ) ^ e ≤ x)
    (hhi : x < (2 : ℚ) ^ (e + 1)) (hn : |x / (2 : ℚ) ^ (e - 52) - n| < 1 / 2)
    (hfin : (n : ℚ) * (2 : ℚ) ^ (e - 52) < (2 : ℚ) ^ (1024 : ℕ)) :
    roundBinary64 x = Dbl.fin ((n : ℚ) * (2 : ℚ) ^ (e - 52)) := by
  have hpos : 0 < x := lt_of_lt_of_le (by positivity) hlo
  have hm : roundMagnitude x = (n : ℚ) * (2 : ℚ) ^ (e - 52) := by
    unfold roundMagnitude ulp
    rw [exponent_eq x e he hlo hhi, abs_of_pos hpos, roundHalfEven_of_near _ n hn]
  rw [roundBinary64_of_nonneg x hpos.le (by rw [hm]; exact hfin), hm]

theorem roundBinary64_of_tie (x : ℚ) (e n : ℤ) (he : -1022 ≤ e) (hlo : (2 : ℚ) ^ e ≤ x)
    (hhi : x < (2 : ℚ) ^ (e + 1)) (hn : x / (2 : ℚ) ^ (e - 52) = (n : ℚ) + 1 / 2)
    (heven : n % 2 = 0)
    (hfin : (n : ℚ) * (2 : ℚ) ^ (e - 52) < (2 : ℚ) ^ (1024 : ℕ)) :
    roundBinary64 x = Dbl.fin ((n : ℚ) * (2 : ℚ) ^ (e - 52)) := by
  have hpos : 0 < x := lt_of_lt_of_le (by positivity) hlo
  have hm : roundMagnitude x = (n : ℚ) * (2 : ℚ) ^ (e - 52) := by
    unfold roundMagnitude ulp
    rw [exponent_eq x e he hlo hhi, abs_of_pos hpos, hn, roundHalfEven_tie n heven]
  rw [roundBinary64_of_nonneg x hpos.le (by rw [hm]; exact hfin), hm]

theorem betaDerivedAlphaBinary64_of_row (stod : String → Except Exn Dbl) (table : ScoreTable)
    (methodName G1Name G2Name : String) (beta : Dbl) (line : List String) (s3 s4 : String)
    (top seq : Dbl)
    (hwf : ∀ l ∈ table, 3 ≤ l.length)
    (hfind : table.find? (hasKey methodName G1Name G2Name) = some line)
    (h3 : (line)[3]? = some s3) (h4 : (line)[4]? = some s4)
    (htop : stod s3 = .ok top) (hseq : stod s4 = .ok seq) :
    betaDerivedAlphaBinary64 stod (some table) methodName G1Name G2Name beta =
      .ok ((beta.fmul top).fdiv ((beta.fmul top).fadd (((Dbl.fin 1).fsub beta).fmul seq))) := by
  simp [betaDerivedAlphaBinary64, getTopScore, getSeqScore, getScoreTuple_eq_find _ _ _ _ hwf,
    hfind, index_of_getElem? h3, index_of_getElem? h4, htop, hseq]

theorem arith_betaBelow :
    ((Dbl.fin betaBelow).fmul (.fin 2)).fdiv
        (((Dbl.fin betaBelow).fmul (.fin 2)).fadd
          (((Dbl.fin 1).fsub (.fin betaBelow)).fmul (.fin 1))) =
      .fin (6414449762226065 / 2 ^ 54) := by
  have hT : roundBinary64 (betaBelow * 2) = .fin (7803815713648836 / 2 ^ 54) := by
    rw [roundBinary64_of_near (betaBelow * 2) (-2) 7803815713648836 (by norm_num)
      (by norm_num [betaBelow]) (by norm_num [betaBelow]) (by norm_num [betaBelow])
      (by norm_num)]
    norm_num
  have hO : roundBinary64 (1 + -betaBelow) = .fin (7056245326328783 / 2 ^ 53) := by
    rw [roundBinary64_of_near (1 + -betaBelow) (-1) 7056245326328783 (by norm_num)
      (by norm_num [betaBelow]) (by norm_num [betaBelow]) (by norm_num [betaBelow])
      (by norm_num)]
    norm_num
  have hS : roundBinary64 (7056245326328783 / 2 ^ 53 * 1) = .fin (7056245326328783 / 2 ^ 53) := by
    rw [roundBinary64_of_near (7056245326328783 / 2 ^ 53 * 1) (-1) 7056245326328783 (by norm_num)
      (by norm_num) (by norm_num) (by norm_num) (by norm_num)]
    norm_num
  have hD : roundBinary64 (7803815713648836 / 2 ^ 54 + 7056245326328783 / 2 ^ 53) =
      .fin (5479076591576600 / 2 ^ 52) := by
    rw [roundBinary64_of_tie (7803815713648836 / 2 ^ 54 + 7056245326328783 / 2 ^ 53) 0
      5479076591576600 (by norm_num) (by norm_num) (by norm_num) (by norm_num) (by norm_num)
      (by norm_num)]
    norm_num
  have hF : roundBinary64 (7803815713648836 / 2 ^ 54 / (5479076591576600 / 2 ^ 52)) =
      .fin (6414449762226065 / 2 ^ 54) := by
    rw [roundBinary64_of_near (7803815713648836 / 2 ^ 54 / (5479076591576600 / 2 ^ 52)) (-2)
      6414449762226065 (by norm_num) (by norm_num) (by norm_num)
      (by rw [abs_lt]; constructor <;> norm_num) (by norm_num)]
    norm_num
  simp only [Dbl.fmul, Dbl.fsub, Dbl.fadd, Dbl.fdiv, Dbl.mul, Dbl.sub, Dbl.neg, Dbl.add, Dbl.div,
    Dbl.round, hT, hO, hS, hD]
  rw [if_neg (by norm_num)]
  simp only [Dbl.round, hF]

theorem arith_betaAbove :
    ((Dbl.fin betaAbove).fmul (.fin 2)).fdiv
        (((Dbl.fin betaAbove).fmul (.fin 2)).fadd
          (((Dbl.fin 1).fsub (.fin betaAbove)).fmul (.fin 1))) =
      .fin (6414449762226064 / 2 ^ 54) := by
  have hT : roundBinary64 (betaAbove * 2) = .fin (7803815713648837 / 2 ^ 54) := by
    rw [roundBinary64_of_near (betaAbove * 2) (-2) 7803815713648837 (by norm_num)
      (by norm_num [betaAbove]) (by norm_num [betaAbove]) (by norm_num [betaAbove])
      (by norm_num)]
    norm_num
  have hO : roundBinary64 (1 + -betaAbove) = .fin (7056245326328783 / 2 ^ 53) := by
    rw [roundBinary64_of_near (1 + -betaAbove) (-1) 7056245326328783 (by norm_num)
      (by norm_num [betaAbove]) (by norm_num [betaAbove])
      (by rw [abs_lt]; constructor <;> norm_num [betaAbove]) (by norm_num)]
    norm_num
  have hS : roundBinary64 (7056245326328783 / 2 ^ 53 * 1) = .fin (7056245326328783 / 2 ^ 53) := by
    rw [roundBinary64_of_near (7056245326328783 / 2 ^ 53 * 1) (-1) 7056245326328783 (by norm_num)
      (by norm_num) (by norm_num) (by norm_num) (by norm_num)]
    norm_num
  have hD : roundBinary64 (7803815713648837 / 2 ^ 54 + 7056245326328783 / 2 ^ 53) =
      .fin (5479076591576601 / 2 ^ 52) := by
    rw [roundBinary64_of_near (7803815713648837 / 2 ^ 54 + 7056245326328783 / 2 ^ 53) 0
      5479076591576601 (by norm_num) (by norm_num) (by norm_num)
      (by rw [abs_lt]; constructor <;> norm_num) (by norm_num)]
    norm_num
  have hF : roundBinary64 (7803815713648837 / 2 ^ 54 / (5479076591576601 / 2 ^ 52)) =
      .fin (6414449762226064 / 2 ^ 54) := by
    rw [roundBinary64_of_near (7803815713648837 / 2 ^ 54 / (5479076591576601 / 2 ^ 52)) (-2)
      6414449762226064 (by norm_num) (by norm_num) (by norm_num)
      (by rw [abs_lt]; constructor <;> norm_num) (by norm_num)]
    norm_num
  simp only [Dbl.fmul, Dbl.fsub, Dbl.fadd, Dbl.fdiv, Dbl.mul, Dbl.sub, Dbl.neg, Dbl.add, Dbl.div,
    Dbl.round, hT, hO, hS, hD]
  rw [if_neg (by norm_num)]
  simp only [Dbl.round, hF]

theorem roundBinary64_betaBelow : roundBinary64 betaBelow = .fin betaBelow := by
  rw [roundBinary64_of_near betaBelow (-3) 7803815713648836 (by norm_num)
    (by norm_num [betaBelow]) (by norm_num [betaBelow]) (by norm_num [betaBelow]) (by norm_num)]
  norm_num [betaBelow]

theorem roundBinary64_betaAbove : roundBinary64 betaAbove = .fin betaAbove := by
  rw [roundBinary64_of_near betaAbove (-3) 7803815713648837 (by norm_num)
    (by norm_num [betaAbove]) (by norm_num [betaAbove]) (by norm_num [betaAbove]) (by norm_num)]
  norm_num [betaAbove]

theorem roundMagnitude_le_two_mul (x : ℚ) (hx : 0 ≤ x) : roundMagnitude x ≤ 2 * x + 1 := by
  have h := (abs_le.1 (roundMagnitude_general x hx)).2
  have hu : x * (2 : ℚ) ^ (-53 : ℤ) ≤ x := by
    calc x * (2 : ℚ) ^ (-53 : ℤ) ≤ x * 1 := mul_le_mul_of_nonneg_left (by norm_num) hx
      _ = x := mul_one x
  have hη : (2 : ℚ) ^ (-1075 : ℤ) ≤ 1 := by norm_num
  linarith

theorem half_le_roundMagnitude (x : ℚ) (hx : (2 : ℚ) ^ (-1022 : ℤ) ≤ x) :
    x / 2 ≤ roundMagnitude x := by
  have hpos : 0 < x := lt_of_lt_of_le (by positivity) hx
  have h := (abs_le.1 (roundMagnitude_normal x hx)).1
  have hu : x * (2 : ℚ) ^ (-53 : ℤ) ≤ x / 2 := by
    calc x * (2 : ℚ) ^ (-53 : ℤ) ≤ x * (1 / 2) := mul_le_mul_of_nonneg_left (by norm_num) hpos.le
      _ = x / 2 := by ring
  generalize x * (2 : ℚ) ^ (-53 : ℤ) = y at h hu
  linarith

theorem quotient_le_quotient (T1 T2 S1 S2 D1 D2 u : ℚ) (hu1 : u < 1)
    (hT1 : 0 ≤ T1) (hT : T1 ≤ T2) (hS2 : 0 ≤ S2) (hS : S2 ≤ S1)
    (hP1 : 0 < T1 + S1) (hP2 : 0 < T2 + S2)
    (hD1 : (T1 + S1) * (1 - u) ≤ D1) (hD2pos : 0 < D2) (hD2 : D2 ≤ (T2 + S2) * (1 + u)) :
    T1 / D1 * (1 - u) ≤ T2 / D2 * (1 + u) := by
  have hd : 0 < 1 - u := by linarith
  have hD1pos : 0 < D1 := lt_of_lt_of_le (mul_pos hP1 hd) hD1
  have hT2 : 0 ≤ T2 := hT1.trans hT
  have hQ1 : 0 ≤ T1 / D1 := div_nonneg hT1 hD1pos.le
  have hQ2 : 0 ≤ T2 / D2 := div_nonneg hT2 hD2pos.le
  have e1 : T1 / D1 * D1 = T1 := div_mul_cancel₀ T1 hD1pos.ne.symm
  have e2 : T2 / D2 * D2 = T2 := div_mul_cancel₀ T2 hD2pos.ne.symm
  have hA : T1 / D1 * ((T1 + S1) * (1 - u)) ≤ T1 := by
    calc T1 / D1 * ((T1 + S1) * (1 - u)) ≤ T1 / D1 * D1 := mul_le_mul_of_nonneg_left hD1 hQ1
      _ = T1 := e1
  have hC : T2 ≤ T2 / D2 * ((T2 + S2) * (1 + u)) := by
    calc T2 = T2 / D2 * D2 := e2.symm
      _ ≤ T2 / D2 * ((T2 + S2) * (1 + u)) := mul_le_mul_of_nonneg_left hD2 hQ2
  have hB : T1 * (T2 + S2) ≤ T2 * (T1 + S1) := by
    have h1 : T1 * S2 ≤ T2 * S1 := mul_le_mul hT hS hS2 hT2
    linarith
  have hP : 0 < (T1 + S1) * (T2 + S2) := mul_pos hP1 hP2
  refine le_of_mul_le_mul_right ?_ hP
  calc T1 / D1 * (1 - u) * ((T1 + S1) * (T2 + S2))
      = T1 / D1 * ((T1 + S1) * (1 - u)) * (T2 + S2) := by ring
    _ ≤ T1 * (T2 + S2) := mul_le_mul_of_nonneg_right hA hP2.le
    _ ≤ T2 * (T1 + S1) := hB
    _ ≤ T2 / D2 * ((T2 + S2) * (1 + u)) * (T1 + S1) := mul_le_mul_of_nonneg_right hC hP1.le
    _ = T2 / D2 * (1 + u) * ((T1 + S1) * (T2 + S2)) := by ring

theorem rounded_quotient_le (Q1 Q2 F1 F2 u e : ℚ) (hu0 : 0 ≤ u) (hu1 : u < 1)
    (hQ : Q1 * (1 - u) ≤ Q2 * (1 + u))
    (hF1 : F1 ≤ Q1 * (1 + u) + e) (hF2 : Q2 * (1 - u) - e ≤ F2) :
    (F1 - e) * (1 - u) ^ 2 ≤ (F2 + e) * (1 + u) ^ 2 := by
  have hd : 0 < 1 - u := by linarith
  have hc : 0 < 1 + u := by linarith
  calc (F1 - e) * (1 - u) ^ 2 ≤ Q1 * (1 + u) * (1 - u) ^ 2 :=
        mul_le_mul_of_nonneg_right (by linarith) (by positivity)
    _ = Q1 * (1 - u) * ((1 + u) * (1 - u)) := by ring
    _ ≤ Q2 * (1 + u) * ((1 + u) * (1 - u)) :=
        mul_le_mul_of_nonneg_right hQ (mul_pos hc hd).le
    _ = Q2 * (1 - u) * (1 + u) ^ 2 := by ring
    _ ≤ (F2 + e) * (1 + u) ^ 2 := mul_le_mul_of_nonneg_right (by linarith) (by positivity)

theorem roundBinary64_of_le (x : ℚ) (hx : 0 ≤ x) (hb : x ≤ (2 : ℚ) ^ (1010 : ℕ)) :
    roundBinary64 x = Dbl.fin (roundMagnitude x) := by
  apply roundBinary64_of_nonneg x hx
  have h := roundMagnitude_le_two_mul x hx
  have h2 : 2 * (2 : ℚ) ^ (1010 : ℕ) + 1 < (2 : ℚ) ^ (1024 : ℕ) := by norm_num
  linarith

theorem factors_binary64 (beta top seq : ℚ) (hb0 : 0 ≤ beta) (hb1 : beta ≤ 1)
    (ht0 : (2 : ℚ) ^ (-1000 : ℤ) ≤ top) (ht1 : top ≤ (2 : ℚ) ^ (1000 : ℕ))
    (hs0 : (2 : ℚ) ^ (-1000 : ℤ) ≤ seq) (hs1 : seq ≤ (2 : ℚ) ^ (1000 : ℕ)) :
    ∃ T S D : ℚ,
      T = roundMagnitude (beta * top) ∧
      S = roundMagnitude (roundMagnitude (1 + -beta) * seq) ∧
      D = roundMagnitude (T + S) ∧
      0 ≤ T ∧ 0 ≤ S ∧ 0 < T + S ∧ 0 < D ∧
      (T + S) * (1 - (2 : ℚ) ^ (-53 : ℤ)) ≤ D ∧ D ≤ (T + S) * (1 + (2 : ℚ) ^ (-53 : ℤ)) ∧
      0 ≤ T / D ∧
      ((Dbl.fin beta).fmul (.fin top)).fdiv
          (((Dbl.fin beta).fmul (.fin top)).fadd
            (((Dbl.fin 1).fsub (.fin beta)).fmul (.fin seq))) =
        .fin (roundMagnitude (T / D)) := by
  have htpos : 0 < top := lt_of_lt_of_le (by positivity) ht0
  have hspos : 0 < seq := lt_of_lt_of_le (by positivity) hs0
  have hB : (0 : ℚ) < (2 : ℚ) ^ (1000 : ℕ) := by positivity
  have hL : (0 : ℚ) < (2 : ℚ) ^ (-1000 : ℤ) := by positivity
  have hLB : (2 : ℚ) ^ (-1022 : ℤ) ≤ (2 : ℚ) ^ (-1000 : ℤ) / 8 := by norm_num
  have hBB : 16 * (2 : ℚ) ^ (1000 : ℕ) + 16 ≤ (2 : ℚ) ^ (1010 : ℕ) := by norm_num
  have hB1 : (1 : ℚ) ≤ (2 : ℚ) ^ (1000 : ℕ) := by norm_num
  generalize (2 : ℚ) ^ (1000 : ℕ) = B at ht1 hs1 hB hBB hB1
  generalize (2 : ℚ) ^ (-1000 : ℤ) = L at ht0 hs0 hL hLB
  -- topFactor
  have hx0 : 0 ≤ beta * top := mul_nonneg hb0 htpos.le
  have hx1 : beta * top ≤ B := by
    calc beta * top ≤ 1 * top := mul_le_mul_of_nonneg_right hb1 htpos.le
      _ ≤ B := by linarith
  have hT0 := roundMagnitude_nonneg (beta * top)
  have hT1 := roundMagnitude_le_two_mul (beta * top) hx0
  -- 1 - beta
  have hy0 : 0 ≤ 1 + -beta := by linarith
  have hO0 := roundMagnitude_nonneg (1 + -beta)
  have hO1 := roundMagnitude_le_two_mul (1 + -beta) hy0
  -- seqFactor
  have hz0 : 0 ≤ roundMagnitude (1 + -beta) * seq := mul_nonneg hO0 hspos.le
  have hz1 : roundMagnitude (1 + -beta) * seq ≤ 3 * B := by
    calc roundMagnitude (1 + -beta) * seq ≤ 3 * seq :=
          mul_le_mul_of_nonneg_right (by linarith) hspos.le
      _ ≤ 3 * B := by linarith
  have hS0 := roundMagnitude_nonneg (roundMagnitude (1 + -beta) * seq)
  have hS1 := roundMagnitude_le_two_mul (roundMagnitude (1 + -beta) * seq) hz0
  -- the sum is in the normal range
  have hlow : L / 8 ≤ roundMagnitude (beta * top)
      + roundMagnitude (roundMagnitude (1 + -beta) * seq) := by
    by_cases hb : beta ≤ 1 / 2
    · have hy : (2 : ℚ) ^ (-1022 : ℤ) ≤ 1 + -beta :=
        le_trans (by norm_num : (2 : ℚ) ^ (-1022 : ℤ) ≤ 1 / 2) (by linarith)
      have hO := half_le_roundMagnitude (1 + -beta) hy
      have hO4 : 1 / 4 ≤ roundMagnitude (1 + -beta) := by linarith
      have hz : L / 4 ≤ roundMagnitude (1 + -beta) * seq := by
        calc L / 4 = 1 / 4 * L := by ring
          _ ≤ roundMagnitude (1 + -beta) * seq := mul_le_mul hO4 hs0 hL.le hO0
      have hS := half_le_roundMagnitude (roundMagnitude (1 + -beta) * seq)
        (le_trans hLB (by linarith))
      linarith
    · push_neg at hb
      have hx : L / 2 ≤ beta * top := by
        calc L / 2 = 1 / 2 * L := by ring
          _ ≤ beta * top := mul_le_mul hb.le ht0 hL.le hb0
      have hT := half_le_roundMagnitude (beta * top) (le_trans hLB (by linarith))
      linarith
  have hsum0 : 0 < roundMagnitude (beta * top)
      + roundMagnitude (roundMagnitude (1 + -beta) * seq) := by linarith
  have hnormal := roundMagnitude_normal (roundMagnitude (beta * top)
      + roundMagnitude (roundMagnitude (1 + -beta) * seq)) (le_trans hLB hlow)
  have hDhalf := half_le_roundMagnitude (roundMagnitude (beta * top)
      + roundMagnitude (roundMagnitude (1 + -beta) * seq)) (le_trans hLB hlow)
  have hDup := roundMagnitude_le_two_mul (roundMagnitude (beta * top)
      + roundMagnitude (roundMagnitude (1 + -beta) * seq)) hsum0.le
  rw [abs_le] at hnormal
  have hDlo : (roundMagnitude (beta * top) + roundMagnitude (roundMagnitude (1 + -beta) * seq))
      * (1 - (2 : ℚ) ^ (-53 : ℤ)) ≤ roundMagnitude (roundMagnitude (beta * top)
        + roundMagnitude (roundMagnitude (1 + -beta) * seq)) := by
    have h := hnormal.1
    generalize (2 : ℚ) ^ (-53 : ℤ) = u at h ⊢
    linarith
  have hDhi : roundMagnitude (roundMagnitude (beta * top)
        + roundMagnitude (roundMagnitude (1 + -beta) * seq))
      ≤ (roundMagnitude (beta * top) + roundMagnitude (roundMagnitude (1 + -beta) * seq))
        * (1 + (2 : ℚ) ^ (-53 : ℤ)) := by
    have h := hnormal.2
    generalize (2 : ℚ) ^ (-53 : ℤ) = u at h ⊢
    linarith
  clear hnormal
  refine ⟨_, _, _, rfl, rfl, rfl, hT0, hS0, hsum0, by linarith, hDlo, hDhi, ?_, ?_⟩
  · exact div_nonneg hT0 (by linarith)
  · have hDpos : 0 < roundMagnitude (roundMagnitude (beta * top)
        + roundMagnitude (roundMagnitude (1 + -beta) * seq)) := by linarith
    have hQ0 : 0 ≤ roundMagnitude (beta * top) / roundMagnitude (roundMagnitude (beta * top)
        + roundMagnitude (roundMagnitude (1 + -beta) * seq)) := div_nonneg hT0 hDpos.le
    have hQ2 : roundMagnitude (beta * top) / roundMagnitude (roundMagnitude (beta * top)
        + roundMagnitude (roundMagnitude (1 + -beta) * seq)) ≤ 2 := by
      rw [div_le_iff₀ hDpos]
      linarith
    have r1 := roundBinary64_of_le (beta * top) hx0 (by linarith)
    have r2 := roundBinary64_of_le (1 + -beta) hy0 (by linarith)
    have r3 := roundBinary64_of_le (roundMagnitude (1 + -beta) * seq) hz0 (by linarith)
    have r4 := roundBinary64_of_le (roundMagnitude (beta * top)
      + roundMagnitude (roundMagnitude (1 + -beta) * seq)) hsum0.le (by linarith)
    have r5 := roundBinary64_of_le (roundMagnitude (beta * top) /
      roundMagnitude (roundMagnitude (beta * top)
        + roundMagnitude (roundMagnitude (1 + -beta) * seq))) hQ0 (by linarith)
    simp only [Dbl.fmul, Dbl.fsub, Dbl.fadd, Dbl.fdiv, Dbl.mul, Dbl.sub, Dbl.neg, Dbl.add,
      Dbl.div, Dbl.round, r1, r2, r3, r4]
    rw [if_neg hDpos.ne.symm]
    simp only [Dbl.round, r5]

theorem tolerance_of_rounded_quotient (F1 F2 : ℚ) (hF2 : 0 ≤ F2)
    (h : (F1 - (2 : ℚ) ^ (-1075 : ℤ)) * (1 - (2 : ℚ) ^ (-53 : ℤ)) ^ 2
      ≤ (F2 + (2 : ℚ) ^ (-1075 : ℤ)) * (1 + (2 : ℚ) ^ (-53 : ℤ)) ^ 2) :
    F1 ≤ F2 * (1 + (2 : ℚ) ^ (-50 : ℤ)) + (2 : ℚ) ^ (-1073 : ℤ) := by
  have hk : (1 + (2 : ℚ) ^ (-53 : ℤ)) ^ 2
      ≤ (1 + (2 : ℚ) ^ (-50 : ℤ)) * (1 - (2 : ℚ) ^ (-53 : ℤ)) ^ 2 := by norm_num
  have hv : (2 : ℚ) ^ (-1075 : ℤ) * (2 + (2 : ℚ) ^ (-50 : ℤ)) ≤ (2 : ℚ) ^ (-1073 : ℤ) := by
    norm_num
  have hd : (0 : ℚ) < (1 - (2 : ℚ) ^ (-53 : ℤ)) ^ 2 := by norm_num
  have he : (0 : ℚ) ≤ (2 : ℚ) ^ (-1075 : ℤ) := by positivity
  generalize (2 : ℚ) ^ (-1075 : ℤ) = e at h hv he
  generalize (2 : ℚ) ^ (-1073 : ℤ) = v at hv
  generalize (2 : ℚ) ^ (-50 : ℤ) = w at hk hv
  generalize (2 : ℚ) ^ (-53 : ℤ) = u at h hk hd
  have h2 : (F1 - e) * (1 - u) ^ 2 ≤ (F2 + e) * (1 + w) * (1 - u) ^ 2 := by
    calc (F1 - e) * (1 - u) ^ 2 ≤ (F2 + e) * (1 + u) ^ 2 := h
      _ ≤ (F2 + e) * ((1 + w) * (1 - u) ^ 2) :=
          mul_le_mul_of_nonneg_left hk (by linarith)
      _ = (F2 + e) * (1 + w) * (1 - u) ^ 2 := by ring
  have h3 : F1 - e ≤ (F2 + e) * (1 + w) := le_of_mul_le_mul_right h2 hd
  nlinarith [h3, hv]

/-! ## The claims -/

/-- C2, as stated, fails: with topology baseline `0` and sequence baseline `1 > 0`, `beta = 1`
yields `0 / 0`, which is NaN and not `1`; with topology baseline `1 > 0` and sequence baseline
`0`, `beta = 0` yields `0 / 0`, which is NaN and not `0`. -/
theorem betaDerivedAlpha_endpoints_counterexample :
    (betaDerivedAlpha stodDecimal (some zeroTopTable) "lgraal" "yeast" "human" (.fin 1)
        = .ok .nan ∧
      betaDerivedAlpha stodDecimal (some zeroTopTable) "lgraal" "yeast" "human" (.fin 1)
        ≠ .ok (.fin 1)) ∧
    (betaDerivedAlpha stodDecimal (some zeroSeqTable) "lgraal" "yeast" "human" (.fin 0)
        = .ok .nan ∧
      betaDerivedAlpha stodDecimal (some zeroSeqTable) "lgraal" "yeast" "human" (.fin 0)
        ≠ .ok (.fin 0)) := by
  have h1 : betaDerivedAlpha stodDecimal (some zeroTopTable) "lgraal" "yeast" "human" (.fin 1)
      = .ok .nan := by
    rw [betaDerivedAlpha_of_row stodDecimal zeroTopTable "lgraal" "yeast" "human" (.fin 1)
      ["lgraal", "yeast", "human", "0", "1"] "0" "1" (.fin 0) (.fin 1)
      (by simp [zeroTopTable]) (by simp [zeroTopTable, hasKey]) (by simp) (by simp)
      stodDecimal_zero stodDecimal_one]
    simp [Dbl.mul, Dbl.sub, Dbl.add, Dbl.neg, Dbl.div]
  have h0 : betaDerivedAlpha stodDecimal (some zeroSeqTable) "lgraal" "yeast" "human" (.fin 0)
      = .ok .nan := by
    rw [betaDerivedAlpha_of_row stodDecimal zeroSeqTable "lgraal" "yeast" "human" (.fin 0)
      ["lgraal", "yeast", "human", "1", "0"] "1" "0" (.fin 1) (.fin 0)
      (by simp [zeroSeqTable]) (by simp [zeroSeqTable, hasKey]) (by simp) (by simp)
      stodDecimal_one stodDecimal_zero]
    simp [Dbl.mul, Dbl.sub, Dbl.add, Dbl.neg, Dbl.div]
  refine ⟨⟨h1, ?_⟩, ⟨h0, ?_⟩⟩
  · rw [h1]; simp
  · rw [h0]; simp

/-- C2, amended: for the first row matching the key, with fields 3 and 4 parsing to the numbers
`top` and `seq`: if `top` is not zero then `betaDerivedAlpha` at `beta = 1` returns `1`, and if
`seq` is not zero then `betaDerivedAlpha` at `beta = 0` returns `0`; nothing is assumed about the
other baseline. -/
theorem betaDerivedAlpha_endpoints (stod : String → Except Exn Dbl) (table : ScoreTable)
    (methodName G1Name G2Name : String) (line : List String) (s3 s4 : String) (top seq : ℚ)
    (hwf : ∀ l ∈ table, 3 ≤ l.length)
    (hfind : table.find? (hasKey methodName G1Name G2Name) = some line)
    (h3 : (line)[3]? = some s3) (h4 : (line)[4]? = some s4)
    (htop : stod s3 = .ok (.fin top)) (hseq : stod s4 = .ok (.fin seq)) :
    (top ≠ 0 →
      betaDerivedAlpha stod (some table) methodName G1Name G2Name (.fin 1) = .ok (.fin 1)) ∧
    (seq ≠ 0 →
      betaDerivedAlpha stod (some table) methodName G1Name G2Name (.fin 0) = .ok (.fin 0)) := by
  constructor
  · intro ht
    rw [betaDerivedAlpha_of_row stod table methodName G1Name G2Name (.fin 1) line s3 s4
      (.fin top) (.fin seq) hwf hfind h3 h4 htop hseq]
    simp [Dbl.mul, Dbl.sub, Dbl.add, Dbl.neg, Dbl.div, ht]
  · intro hs
    rw [betaDerivedAlpha_of_row stod table methodName G1Name G2Name (.fin 0) line s3 s4
      (.fin top) (.fin seq) hwf hfind h3 h4 htop hseq]
    simp [Dbl.mul, Dbl.sub, Dbl.add, Dbl.neg, Dbl.div, hs]

/-- Witness of the amended C2 on `sampleTable` (baselines `2` and `1`): `beta = 1` gives `1` and
`beta = 0` gives `0`. -/
theorem betaDerivedAlpha_endpoints_witness :
    betaDerivedAlpha stodDecimal (some sampleTable) "lgraal" "yeast" "human" (.fin 1)
      = .ok (.fin 1) ∧
    betaDerivedAlpha stodDecimal (some sampleTable) "lgraal" "yeast" "human" (.fin 0)
      = .ok (.fin 0) :=
  have h := betaDerivedAlpha_endpoints stodDecimal sampleTable "lgraal" "yeast" "human"
    ["lgraal", "yeast", "human", "2", "1"] "2" "1" 2 1
    (by simp [sampleTable]) (by simp [sampleTable, hasKey]) (by simp) (by simp)
    stodDecimal_two stodDecimal_one
  ⟨h.1 (by norm_num), h.2 (by norm_num)⟩

/-- C3, as stated, fails on the doubles the code computes: on `sampleTable` (baselines `2` and
`1`, both positive) the doubles `betaBelow < betaAbove`, neighbours in `[0, 1]`, give
`betaDerivedAlpha(betaBelow) = 6414449762226065 / 2^54` and
`betaDerivedAlpha(betaAbove) = 6414449762226064 / 2^54`, which is smaller. -/
theorem betaDerivedAlpha_monotone_counterexample :
    roundBinary64 betaBelow = .fin betaBelow ∧ roundBinary64 betaAbove = .fin betaAbove ∧
    0 ≤ betaBelow ∧ betaBelow ≤ betaAbove ∧ betaAbove ≤ 1 ∧
    betaDerivedAlphaBinary64 stodDecimal (some sampleTable) "lgraal" "yeast" "human"
      (.fin betaBelow) = .ok (.fin (6414449762226065 / 2 ^ 54)) ∧
    betaDerivedAlphaBinary64 stodDecimal (some sampleTable) "lgraal" "yeast" "human"
      (.fin betaAbove) = .ok (.fin (6414449762226064 / 2 ^ 54)) ∧
    ¬ ((6414449762226065 / 2 ^ 54 : ℚ) ≤ 6414449762226064 / 2 ^ 54) := by
  refine ⟨roundBinary64_betaBelow, roundBinary64_betaAbove, by norm_num [betaBelow],
    by norm_num [betaBelow, betaAbove], by norm_num [betaAbove], ?_, ?_, by norm_num⟩
  · rw [betaDerivedAlphaBinary64_of_row stodDecimal sampleTable "lgraal" "yeast" "human"
      (.fin betaBelow) ["lgraal", "yeast", "human", "2", "1"] "2" "1" (.fin 2) (.fin 1)
      (by simp [sampleTable]) (by simp [sampleTable, hasKey]) (by simp) (by simp)
      stodDecimal_two stodDecimal_one, arith_betaBelow]
  · rw [betaDerivedAlphaBinary64_of_row stodDecimal sampleTable "lgraal" "yeast" "human"
      (.fin betaAbove) ["lgraal", "yeast", "human", "2", "1"] "2" "1" (.fin 2) (.fin 1)
      (by simp [sampleTable]) (by simp [sampleTable, hasKey]) (by simp) (by simp)
      stodDecimal_two stodDecimal_one, arith_betaAbove]

/-- C3, amended: for the first row matching the key, with fields 3 and 4 parsing to baselines
between `2^-1000` and `2^1000`, and `0 ≤ beta1 ≤ beta2 ≤ 1`, both calls of `betaDerivedAlpha`
return finite doubles, and the function is non-decreasing up to rounding:
`betaDerivedAlpha(beta1) ≤ betaDerivedAlpha(beta2) * (1 + 2^-50) + 2^-1073`. -/
theorem betaDerivedAlpha_monotone_up_to_rounding (stod : String → Except Exn Dbl)
    (table : ScoreTable) (methodName G1Name G2Name : String) (line : List String)
    (s3 s4 : String) (top seq : ℚ) (beta1 beta2 : ℚ)
    (hwf : ∀ l ∈ table, 3 ≤ l.length)
    (hfind : table.find? (hasKey methodName G1Name G2Name) = some line)
    (h3 : (line)[3]? = some s3) (h4 : (line)[4]? = some s4)
    (htop : stod s3 = .ok (.fin top)) (hseq : stod s4 = .ok (.fin seq))
    (ht0 : (2 : ℚ) ^ (-1000 : ℤ) ≤ top) (ht1 : top ≤ (2 : ℚ) ^ (1000 : ℕ))
    (hs0 : (2 : ℚ) ^ (-1000 : ℤ) ≤ seq) (hs1 : seq ≤ (2 : ℚ) ^ (1000 : ℕ))
    (h0 : 0 ≤ beta1) (h12 : beta1 ≤ beta2) (h1 : beta2 ≤ 1) :
    ∃ alpha1 alpha2 : ℚ,
      betaDerivedAlphaBinary64 stod (some table) methodName G1Name G2Name (.fin beta1)
        = .ok (.fin alpha1) ∧
      betaDerivedAlphaBinary64 stod (some table) methodName G1Name G2Name (.fin beta2)
        = .ok (.fin alpha2) ∧
      alpha1 ≤ alpha2 * (1 + (2 : ℚ) ^ (-50 : ℤ)) + (2 : ℚ) ^ (-1073 : ℤ) := by
  have htpos : 0 < top := lt_of_lt_of_le (by positivity) ht0
  have hspos : 0 < seq := lt_of_lt_of_le (by positivity) hs0
  obtain ⟨T1, S1, D1, eT1, eS1, -, hT1, -, hP1, -, hD1lo, -, hQ1, c1⟩ :=
    factors_binary64 beta1 top seq h0 (h12.trans h1) ht0 ht1 hs0 hs1
  obtain ⟨T2, S2, D2, eT2, eS2, -, -, hS2, hP2, hD2pos, -, hD2hi, hQ2, c2⟩ :=
    factors_binary64 beta2 top seq (h0.trans h12) h1 ht0 ht1 hs0 hs1
  refine ⟨roundMagnitude (T1 / D1), roundMagnitude (T2 / D2), ?_, ?_, ?_⟩
  · rw [betaDerivedAlphaBinary64_of_row stod table methodName G1Name G2Name (.fin beta1) line
      s3 s4 (.fin top) (.fin seq) hwf hfind h3 h4 htop hseq, c1]
  · rw [betaDerivedAlphaBinary64_of_row stod table methodName G1Name G2Name (.fin beta2) line
      s3 s4 (.fin top) (.fin seq) hwf hfind h3 h4 htop hseq, c2]
  · have hT : T1 ≤ T2 := by
      rw [eT1, eT2]
      exact roundMagnitude_mono (mul_nonneg h0 htpos.le)
        (mul_le_mul_of_nonneg_right h12 htpos.le)
    have hO : roundMagnitude (1 + -beta2) ≤ roundMagnitude (1 + -beta1) :=
      roundMagnitude_mono (by linarith) (by linarith)
    have hS : S2 ≤ S1 := by
      rw [eS1, eS2]
      exact roundMagnitude_mono (mul_nonneg (roundMagnitude_nonneg _) hspos.le)
        (mul_le_mul_of_nonneg_right hO hspos.le)
    have hu1 : (2 : ℚ) ^ (-53 : ℤ) < 1 := by norm_num
    have hu0 : (0 : ℚ) ≤ (2 : ℚ) ^ (-53 : ℤ) := by positivity
    have hQ := quotient_le_quotient T1 T2 S1 S2 D1 D2 ((2 : ℚ) ^ (-53 : ℤ)) hu1 hT1 hT hS2 hS
      hP1 hP2 hD1lo hD2pos hD2hi
    have g1 := (abs_le.1 (roundMagnitude_general (T1 / D1) hQ1)).2
    have g2 := (abs_le.1 (roundMagnitude_general (T2 / D2) hQ2)).1
    have hF1 : roundMagnitude (T1 / D1)
        ≤ T1 / D1 * (1 + (2 : ℚ) ^ (-53 : ℤ)) + (2 : ℚ) ^ (-1075 : ℤ) := by
      generalize (2 : ℚ) ^ (-53 : ℤ) = u at g1 ⊢
      generalize (2 : ℚ) ^ (-1075 : ℤ) = e at g1 ⊢
      linarith
    have hF2 : T2 / D2 * (1 - (2 : ℚ) ^ (-53 : ℤ)) - (2 : ℚ) ^ (-1075 : ℤ)
        ≤ roundMagnitude (T2 / D2) := by
      generalize (2 : ℚ) ^ (-53 : ℤ) = u at g2 ⊢
      generalize (2 : ℚ) ^ (-1075 : ℤ) = e at g2 ⊢
      linarith
    exact tolerance_of_rounded_quotient _ _ (roundMagnitude_nonneg _)
      (rounded_quotient_le _ _ _ _ _ _ hu0 hu1 hQ hF1 hF2)

/-- Witness of the amended C3 on `sampleTable` (baselines `2` and `1`) at the neighbouring
doubles `betaBelow` and `betaAbove`. -/
theorem betaDerivedAlpha_monotone_up_to_rounding_witness :
    ∃ alpha1 alpha2 : ℚ,
      betaDerivedAlphaBinary64 stodDecimal (some sampleTable) "lgraal" "yeast" "human"
        (.fin betaBelow) = .ok (.fin alpha1) ∧
      betaDerivedAlphaBinary64 stodDecimal (some sampleTable) "lgraal" "yeast" "human"
        (.fin betaAbove) = .ok (.fin alpha2) ∧
      alpha1 ≤ alpha2 * (1 + (2 : ℚ) ^ (-50 : ℤ)) + (2 : ℚ) ^ (-1073 : ℤ) :=
  betaDerivedAlpha_monotone_up_to_rounding stodDecimal sampleTable "lgraal" "yeast" "human"
    ["lgraal", "yeast", "human", "2", "1"] "2" "1" 2 1 betaBelow betaAbove
    (by simp [sampleTable]) (by simp [sampleTable, hasKey]) (by simp) (by simp)
    stodDecimal_two stodDecimal_one (by norm_num) (by norm_num) (by norm_num) (by norm_num)
    (by norm_num [betaBelow]) (by norm_num [betaBelow, betaAbove]) (by norm_num [betaAbove])

/-- C4: for a loaded score table whose rows have their key fields and every key,
`getScoreTuple` fails if and only if no row has fields 0, 1, 2 equal to the three keys; when it
fails the error is a `runtime_error` whose message contains `methodName`, `G1Name` and `G2Name`;
when it succeeds the row returned is a row of the table whose first three fields are the keys. -/
theorem getScoreTuple_fails_iff (table : ScoreTable) (methodName G1Name G2Name : String)
    (hwf : ∀ l ∈ table, 3 ≤ l.length) :
    ((∃ e, getScoreTuple (some table) methodName G1Name G2Name = .error e) ↔
      ∀ l ∈ table, ¬ ((l)[0]? = some methodName ∧ (l)[1]? = some G1Name
        ∧ (l)[2]? = some G2Name)) ∧
    (∀ e, getScoreTuple (some table) methodName G1Name G2Name = .error e →
      ∃ msg, e = .runtime_error msg ∧ Mentions msg methodName ∧ Mentions msg G1Name
        ∧ Mentions msg G2Name) ∧
    (∀ line, getScoreTuple (some table) methodName G1Name G2Name = .ok line →
      line ∈ table ∧ (line)[0]? = some methodName ∧ (line)[1]? = some G1Name
        ∧ (line)[2]? = some G2Name) := by
  rw [getScoreTuple_eq_find _ _ _ _ hwf]
  cases hf : table.find? (hasKey methodName G1Name G2Name) with
  | none =>
    refine ⟨⟨fun _ l hl => ?_, fun _ => ⟨_, rfl⟩⟩, ?_, ?_⟩
    · have := List.find?_eq_none.1 hf l hl
      simpa [hasKey] using this
    · intro e he
      simp only [Except.error.injEq] at he
      subst he
      exact ⟨_, rfl, mentions_notFound methodName G1Name G2Name⟩
    · intro line h; simp at h
  | some row =>
    have hrow : hasKey methodName G1Name G2Name row = true := List.find?_some hf
    have hmem : row ∈ table := List.mem_of_find?_eq_some hf
    simp only [hasKey, decide_eq_true_eq] at hrow
    refine ⟨⟨fun ⟨e, he⟩ => by simp at he, fun h => absurd hrow (h row hmem)⟩, ?_, ?_⟩
    · intro e he; simp at he
    · intro line h
      simp only [Except.ok.injEq] at h
      subst h
      exact ⟨hmem, hrow⟩

/-- Witness of C4 on `sampleTable` with the key `hubalign`, `yeast`, `human`, which no row
carries. -/
theorem getScoreTuple_fails_iff_witness :
    ((∃ e, getScoreTuple (some sampleTable) "hubalign" "yeast" "human" = .error e) ↔
      ∀ l ∈ sampleTable, ¬ ((l)[0]? = some "hubalign" ∧ (l)[1]? = some "yeast"
        ∧ (l)[2]? = some "human")) ∧
    (∀ e, getScoreTuple (some sampleTable) "hubalign" "yeast" "human" = .error e →
      ∃ msg, e = .runtime_error msg ∧ Mentions msg "hubalign" ∧ Mentions msg "yeast"
        ∧ Mentions msg "human") ∧
    (∀ line, getScoreTuple (some sampleTable) "hubalign" "yeast" "human" = .ok line →
      line ∈ sampleTable ∧ (line)[0]? = some "hubalign" ∧ (line)[1]? = some "yeast"
        ∧ (line)[2]? = some "human") :=
  getScoreTuple_fails_iff sampleTable "hubalign" "yeast" "human" (by simp [sampleTable])

/-- C5, as stated, fails: in `duplicateTable` two rows carry the key `lgraal`, `yeast`, `human`,
and the lookup succeeds, returning the first of them. -/
theorem getScoreTuple_unique_counterexample :
    getScoreTuple (some duplicateTable) "lgraal" "yeast" "human"
      = .ok ["lgraal", "yeast", "human", "2", "1"] ∧
    duplicateTable.countP (hasKey "lgraal" "yeast" "human") = 2 := by
  constructor
  · simp [getScoreTuple, getScoreTable, duplicateTable, getScoreTupleLoop, lineMatches, index]
  · simp [duplicateTable, hasKey, List.countP_cons]

/-- C5, amended: a score-table lookup by (method, G1, G2) returns the first matching row or fails.
For every table whose rows have their key fields and every key, `getScoreTuple` succeeds if and
only if at least one row has fields 0, 1, 2 equal to the key, and the row it returns is the first
such row of the table. -/
theorem getScoreTuple_first_match (table : ScoreTable) (methodName G1Name G2Name : String)
    (hwf : ∀ l ∈ table, 3 ≤ l.length) :
    ((∃ line, getScoreTuple (some table) methodName G1Name G2Name = .ok line) ↔
      1 ≤ table.countP (hasKey methodName G1Name G2Name)) ∧
    (∀ line, getScoreTuple (some table) methodName G1Name G2Name = .ok line →
      table.find? (hasKey methodName G1Name G2Name) = some line) := by
  rw [getScoreTuple_eq_find _ _ _ _ hwf]
  cases hf : table.find? (hasKey methodName G1Name G2Name) with
  | none =>
    refine ⟨⟨fun ⟨l, hl⟩ => by simp at hl, fun h => ?_⟩, fun l hl => by simp at hl⟩
    obtain ⟨a, ha, hpa⟩ := List.countP_pos_iff.1 h
    exact absurd hpa (List.find?_eq_none.1 hf a ha)
  | some row =>
    refine ⟨⟨fun _ => ?_, fun _ => ⟨row, rfl⟩⟩, fun l hl => by simpa using hl⟩
    exact List.countP_pos_iff.2 ⟨row, List.mem_of_find?_eq_some hf, List.find?_some hf⟩

/-- Witness of the amended C5 on `duplicateTable`. -/
theorem getScoreTuple_first_match_witness :
    ((∃ line, getScoreTuple (some duplicateTable) "lgraal" "yeast" "human" = .ok line) ↔
      1 ≤ duplicateTable.countP (hasKey "lgraal" "yeast" "human")) ∧
    (∀ line, getScoreTuple (some duplicateTable) "lgraal" "yeast" "human" = .ok line →
      duplicateTable.find? (hasKey "lgraal" "yeast" "human") = some line) :=
  getScoreTuple_first_match duplicateTable "lgraal" "yeast" "human" (by simp [duplicateTable])

/-- C7: when the `-eval` path is not empty, `initMethod` returns the `NoneMethod` built from that
path, whatever `-method` and the other arguments are; it raises no error and leaves the
`MeasureCombination` and `cerr` as they were, so no branch of the dispatch on the method name
ran. -/
theorem initMethod_eval_override {MC Measure : Type} (ext : Ext MC Measure)
    (file : Option ScoreTable) (G1 G2 : Graph) (args : ArgumentParser) (w : World MC)
    (heval : args.strings "-eval" ≠ "") :
    initMethod ext file G1 G2 args w =
      (.ok (Method.NoneMethod G1 G2 (args.strings "-eval")), w) := by
  simp [initMethod, heval]

/-- Witness of C7: `-eval` set, `-method lgraal` with an objective mode the `lgraal` branch
rejects, and no score file. -/
theorem initMethod_eval_override_witness :
    initMethod sampleExt none yeast human evalArgs sampleWorld =
      (.ok (Method.NoneMethod yeast human (evalArgs.strings "-eval")), sampleWorld) :=
  initMethod_eval_override sampleExt none yeast human evalArgs sampleWorld
    (by simp [evalArgs, ArgumentParser.ofLists, List.lookup])

/-- C8: with an empty `-eval` path and a `-method` name that is none of `greedylccs`, `wave`,
`lgraal`, `hubalign`, `tabu`, `sana`, `hc`, `random`, `none`, `initMethod` fails with a
`runtime_error` whose message contains that name; no method is built and the world is left as it
was. -/
theorem initMethod_unknown_method {MC Measure : Type} (ext : Ext MC Measure)
    (file : Option ScoreTable) (G1 G2 : Graph) (args : ArgumentParser) (w : World MC)
    (heval : args.strings "-eval" = "")
    (hname : args.strings "-method" ∉
      ["greedylccs", "wave", "lgraal", "hubalign", "tabu", "sana", "hc", "random", "none"]) :
    initMethod ext file G1 G2 args w =
      (.error (.runtime_error ("Error: unknown method: " ++ args.strings "-method")), w) ∧
    Mentions ("Error: unknown method: " ++ args.strings "-method") (args.strings "-method") := by
  simp only [List.mem_cons, List.mem_singleton, List.not_mem_nil, or_false, not_or] at hname
  obtain ⟨h1, h2, h3, h4, h5, h6, h7, h8, h9⟩ := hname
  constructor
  · simp [initMethod, heval, h1, h2, h3, h4, h5, h6, h7, h8, h9]
  · exact mentions_of_data "Error: unknown method: " "" (by simp [String.data_append])

/-- Witness of C8: `-method magna`. -/
theorem initMethod_unknown_method_witness :
    initMethod sampleExt (some sampleTable) yeast human unknownMethodArgs sampleWorld =
      (.error (.runtime_error
        ("Error: unknown method: " ++ unknownMethodArgs.strings "-method")), sampleWorld) ∧
    Mentions ("Error: unknown method: " ++ unknownMethodArgs.strings "-method")
      (unknownMethodArgs.strings "-method") :=
  initMethod_unknown_method sampleExt (some sampleTable) yeast human unknownMethodArgs sampleWorld
    (by simp [unknownMethodArgs, ArgumentParser.ofLists, List.lookup])
    (by simp [unknownMethodArgs, ArgumentParser.ofLists, List.lookup])

/-- C9: when `-objfuntype` is none of `generic`, `alpha`, `beta`, each of `initLgraal`,
`initHubAlign` and `updateObjFun` fails with a `runtime_error` whose message contains the
`-objfuntype` value, and so does `initMethod` with an empty `-eval` for the methods `lgraal`,
`hubalign`, `tabu` and `sana`; no method is built, and `updateObjFun` and `initMethod` leave the
`MeasureCombination` and `cerr` as they were. -/
theorem unknown_objfuntype_fails {MC Measure : Type} (ext : Ext MC Measure)
    (file : Option ScoreTable) (methodName : String) (G1 G2 : Graph) (args : ArgumentParser)
    (w : World MC)
    (hobj : args.strings "-objfuntype" ∉ ["generic", "alpha", "beta"]) :
    (initLgraal ext.stod file G1 G2 args : Except Exn (Method Measure)) =
      .error (.runtime_error ("unknown value of -objfuntype: " ++ args.strings "-objfuntype")) ∧
    (initHubAlign ext.stod file G1 G2 args : Except Exn (Method Measure)) =
      .error (.runtime_error ("unknown value of -objfuntype: " ++ args.strings "-objfuntype")) ∧
    updateObjFun ext file methodName G1 G2 args w =
      (.error (.runtime_error ("unknown value of -objfuntype: " ++ args.strings "-objfuntype")),
        w) ∧
    (args.strings "-eval" = "" →
      args.strings "-method" ∈ ["lgraal", "hubalign", "tabu", "sana"] →
      initMethod ext file G1 G2 args w =
        (.error (.runtime_error
          ("unknown value of -objfuntype: " ++ args.strings "-objfuntype")), w)) ∧
    Mentions ("unknown value of -objfuntype: " ++ args.strings "-objfuntype")
      (args.strings "-objfuntype") := by
  simp only [List.mem_cons, List.mem_singleton, List.not_mem_nil, or_false, not_or] at hobj
  obtain ⟨hg, ha, hb⟩ := hobj
  have hL : (initLgraal ext.stod file G1 G2 args : Except Exn (Method Measure)) =
      .error (.runtime_error ("unknown value of -objfuntype: " ++ args.strings "-objfuntype")) := by
    simp [initLgraal, hg, ha, hb]
  have hH : (initHubAlign ext.stod file G1 G2 args : Except Exn (Method Measure)) =
      .error (.runtime_error ("unknown value of -objfuntype: " ++ args.strings "-objfuntype")) := by
    simp [initHubAlign, hg, ha, hb]
  have hU : ∀ name : String, updateObjFun ext file name G1 G2 args w =
      (.error (.runtime_error ("unknown value of -objfuntype: " ++ args.strings "-objfuntype")),
        w) := by
    intro name
    simp [updateObjFun, hg, ha, hb]
  refine ⟨hL, hH, hU methodName, ?_, ?_⟩
  · intro heval hmethod
    simp only [List.mem_cons, List.mem_singleton, List.not_mem_nil, or_false] at hmethod
    rcases hmethod with hm | hm | hm | hm
    · simp [initMethod, heval, hm, hL]
    · simp [initMethod, heval, hm, hH]
    · simp [initMethod, heval, hm, initTabuSearch, hU "tabu"]
    · simp [initMethod, heval, hm, initSANA, hU "sana"]
  · exact mentions_of_data "unknown value of -objfuntype: " "" (by simp [String.data_append])

/-- Witness of C9: `-objfuntype gamma` with `-method sana`. -/
theorem unknown_objfuntype_fails_witness :
    (initLgraal sampleExt.stod (some sampleTable) yeast human unknownObjFunArgs :
        Except Exn (Method String)) =
      .error (.runtime_error
        ("unknown value of -objfuntype: " ++ unknownObjFunArgs.strings "-objfuntype")) ∧
    (initHubAlign sampleExt.stod (some sampleTable) yeast human unknownObjFunArgs :
        Except Exn (Method String)) =
      .error (.runtime_error
        ("unknown value of -objfuntype: " ++ unknownObjFunArgs.strings "-objfuntype")) ∧
    updateObjFun sampleExt (some sampleTable) "sana" yeast human unknownObjFunArgs sampleWorld =
      (.error (.runtime_error
        ("unknown value of -objfuntype: " ++ unknownObjFunArgs.strings "-objfuntype")),
        sampleWorld) ∧
    (unknownObjFunArgs.strings "-eval" = "" →
      unknownObjFunArgs.strings "-method" ∈ ["lgraal", "hubalign", "tabu", "sana"] →
      initMethod sampleExt (some sampleTable) yeast human unknownObjFunArgs sampleWorld =
        (.error (.runtime_error
          ("unknown value of -objfuntype: " ++ unknownObjFunArgs.strings "-objfuntype")),
          sampleWorld)) ∧
    Mentions ("unknown value of -objfuntype: " ++ unknownObjFunArgs.strings "-objfuntype")
      (unknownObjFunArgs.strings "-objfuntype") :=
  unknown_objfuntype_fails sampleExt (some sampleTable) "sana" yeast human unknownObjFunArgs
    sampleWorld (by simp [unknownObjFunArgs, ArgumentParser.ofLists, List.lookup])

/-- C10: in beta mode `initHubAlign` derives alpha with the method key `lgraal` and the names of
`G1` and `G2`.  When `betaDerivedAlpha` for that key returns `alpha`, `initHubAlign` builds
`HubAlignWrapper` with `1 - alpha` and `initLgraal` builds `LGraalWrapper` with `alpha`; when it
fails, both fail with its error; and on a table without a row for the key `lgraal` and the pair,
whatever its `hubalign` rows, `initHubAlign` fails with the error of the missing `lgraal` entry.
-/
theorem initHubAlign_beta {Measure : Type} (stod : String → Except Exn Dbl)
    (file : Option ScoreTable) (G1 G2 : Graph) (args : ArgumentParser)
    (hobj : args.strings "-objfuntype" = "beta") :
    (∀ alpha,
      betaDerivedAlpha stod file "lgraal" G1.getName G2.getName (args.doubles "-beta")
        = .ok alpha →
      (initHubAlign stod file G1 G2 args : Except Exn (Method Measure)) =
        .ok (Method.HubAlignWrapper G1 G2 ((Dbl.fin 1).sub alpha)) ∧
      (initLgraal stod file G1 G2 args : Except Exn (Method Measure)) =
        .ok (Method.LGraalWrapper G1 G2 alpha (args.doubles "-lgraaliter")
          ((args.doubles "-t").mul (Dbl.fin 60)))) ∧
    (∀ e,
      betaDerivedAlpha stod file "lgraal" G1.getName G2.getName (args.doubles "-beta")
        = .error e →
      (initHubAlign stod file G1 G2 args : Except Exn (Method Measure)) = .error e ∧
      (initLgraal stod file G1 G2 args : Except Exn (Method Measure)) = .error e) ∧
    (∀ table, file = some table → (∀ l ∈ table, 3 ≤ l.length) →
      table.find? (hasKey "lgraal" G1.getName G2.getName) = none →
      (initHubAlign stod file G1 G2 args : Except Exn (Method Measure)) =
        .error (.runtime_error
          ("Couldn't find entry in " ++ scoreFile ++ " for " ++ "lgraal" ++ " " ++ G1.getName
            ++ " " ++ G2.getName))) := by
  have hok : ∀ alpha,
      betaDerivedAlpha stod file "lgraal" G1.getName G2.getName (args.doubles "-beta")
        = .ok alpha →
      (initHubAlign stod file G1 G2 args : Except Exn (Method Measure)) =
        .ok (Method.HubAlignWrapper G1 G2 ((Dbl.fin 1).sub alpha)) ∧
      (initLgraal stod file G1 G2 args : Except Exn (Method Measure)) =
        .ok (Method.LGraalWrapper G1 G2 alpha (args.doubles "-lgraaliter")
          ((args.doubles "-t").mul (Dbl.fin 60))) := by
    intro alpha h
    constructor <;> simp [initHubAlign, initLgraal, hobj, h]
  have herr : ∀ e,
      betaDerivedAlpha stod file "lgraal" G1.getName G2.getName (args.doubles "-beta")
        = .error e →
      (initHubAlign stod file G1 G2 args : Except Exn (Method Measure)) = .error e ∧
      (initLgraal stod file G1 G2 args : Except Exn (Method Measure)) = .error e := by
    intro e h
    constructor <;> simp [initHubAlign, initLgraal, hobj, h]
  refine ⟨hok, herr, ?_⟩
  intro table hfile hwf hnone
  subst hfile
  exact (herr _ (betaDerivedAlpha_of_no_row stod table "lgraal" G1.getName G2.getName
    (args.doubles "-beta") hwf hnone)).1

/-- Witness of C10 with `beta = 1/2`: on `sampleTable`, whose `lgraal` row gives
`alpha = 2/3`, `initHubAlign` passes `1 - 2/3` and `initLgraal` passes `2/3`; on
`hubalignTable`, which has a `hubalign` row and no `lgraal` row, `initHubAlign` fails. -/
theorem initHubAlign_beta_witness :
    ((initHubAlign stodDecimal (some sampleTable) yeast human betaArgs :
        Except Exn (Method String)) =
      .ok (Method.HubAlignWrapper yeast human ((Dbl.fin 1).sub (Dbl.fin (2 / 3)))) ∧
     (initLgraal stodDecimal (some sampleTable) yeast human betaArgs :
        Except Exn (Method String)) =
      .ok (Method.LGraalWrapper yeast human (Dbl.fin (2 / 3)) (betaArgs.doubles "-lgraaliter")
        ((betaArgs.doubles "-t").mul (Dbl.fin 60)))) ∧
    (initHubAlign stodDecimal (some hubalignTable) yeast human betaArgs :
        Except Exn (Method String)) =
      .error (.runtime_error
        ("Couldn't find entry in " ++ scoreFile ++ " for " ++ "lgraal" ++ " " ++ yeast.getName
          ++ " " ++ human.getName)) := by
  have hobj : betaArgs.strings "-objfuntype" = "beta" := by
    simp [betaArgs, ArgumentParser.ofLists, List.lookup]
  have hbeta : betaArgs.doubles "-beta" = Dbl.fin (1 / 2) := by
    simp [betaArgs, ArgumentParser.ofLists, List.lookup]
  have halpha : betaDerivedAlpha stodDecimal (some sampleTable) "lgraal" yeast.getName
      human.getName (betaArgs.doubles "-beta") = .ok (Dbl.fin (2 / 3)) := by
    rw [hbeta, betaDerivedAlpha_of_row stodDecimal sampleTable "lgraal" yeast.getName
      human.getName (.fin (1 / 2)) ["lgraal", "yeast", "human", "2", "1"] "2" "1" (.fin 2) (.fin 1)
      (by simp [sampleTable]) (by simp [sampleTable, hasKey, yeast, human, Graph.getName])
      (by simp) (by simp) stodDecimal_two stodDecimal_one,
      alpha_of_finite (1 / 2) 2 1 (by norm_num)]
    norm_num
  exact ⟨(initHubAlign_beta stodDecimal (some sampleTable) yeast human betaArgs hobj).1 _ halpha,
    (initHubAlign_beta stodDecimal (some hubalignTable) yeast human betaArgs hobj).2.2
      hubalignTable rfl (by simp [hubalignTable])
      (by simp [hubalignTable, hasKey, yeast, human, Graph.getName])⟩

end SANA
